import Mathlib

/-!
Verification of the Medinet dynamic-PDF document service against its two
server implementations (src/server.js and src/unnamed/part_000, a second
server.js variant).  JavaScript values flowing through the service are
embedded as `JsonVal`; JS `undefined` is `Option.none` wherever a value can
be absent.  External API calls (Google Sheets/Docs/Drive, Zendesk Sell,
`JSON.parse`) are oracles passed in as parameters, and side effects are
recorded in an explicit trace.
-/

/-- A JSON/JS value as carried by request payloads and configuration rows.
JSON numbers are embedded as integers (no claim depends on float formatting). -/
inductive JsonVal where
  | null
  | bool (b : Bool)
  | num (n : Int)
  | str (s : String)
  | arr (items : List JsonVal)
  | obj (fields : List (String × JsonVal))

instance : Inhabited JsonVal := ⟨.null⟩

/-- JS truthiness of an embedded value (`Boolean(v)`). -/
def jsTruthy : JsonVal → Bool
  | .null => false
  | .bool b => b
  | .num n => n != 0
  | .str s => s ≠ ""
  | .arr _ => true
  | .obj _ => true

/-- Own-property lookup on an object's field list (first binding wins, as in
objects built key-by-key without duplicates). -/
def lookupField : List (String × JsonVal) → String → Option JsonVal
  | [], _ => none
  | (k, v) :: rest, key => if k = key then some v else lookupField rest key

/-- Array indexing as JS property access: `"length"` and canonical decimal
indices are the own properties of an array. -/
def arrIndex (items : List JsonVal) (key : String) : Option JsonVal :=
  if key = "length" then some (.num items.length)
  else
    match key.toNat? with
    | some i => if toString i = key ∧ i < items.length then items[i]? else none
    | none => none

/-- String indexing as JS property access: `"length"` and canonical decimal
indices (yielding one-character strings) are the own properties of a string. -/
def strIndex (s : String) (key : String) : Option JsonVal :=
  if key = "length" then some (.num s.length)
  else
    match key.toNat? with
    | some i =>
        if toString i = key then (s.data[i]?).map (fun c => .str (String.mk [c])) else none
    | none => none

/-- Property access `v[key]` for any defined JS value: own properties of objects, arrays and
strings; `undefined` on other primitives (prototype methods are not modelled:
payloads are plain parsed JSON). -/
def jsIndex : JsonVal → String → Option JsonVal
  | .obj fs, key => lookupField fs key
  | .arr its, key => arrIndex its key
  | .str s, key => strIndex s key
  | _, _ => none

/-- Membership `key in v` together with `v[key]` for the `typeof v === "object"` values
(objects and arrays; `null` excluded), as used by src/server.js
`getValueByPath`. -/
def objIndex : JsonVal → String → Option JsonVal
  | .obj fs, key => lookupField fs key
  | .arr its, key => arrIndex its key
  | _, _ => none

/-- Truthiness of `v[key]` (undefined is falsy). -/
def truthyProp (v : JsonVal) (key : String) : Bool :=
  match jsIndex v key with
  | some w => jsTruthy w
  | none => false

/-- Accumulator loop of `String.prototype.split(".")`. -/
def splitDotAux : List Char → List Char → List String
  | [], acc => [String.mk acc.reverse]
  | c :: rest, acc =>
    if c = '.' then String.mk acc.reverse :: splitDotAux rest []
    else splitDotAux rest (c :: acc)

/-- JS `path.split(".")`: the empty string splits to `[""]`, adjacent dots
give empty segments. -/
def jsSplitDot (s : String) : List String := splitDotAux s.data []

namespace Server

/-- The segment loop of src/server.js `getValueByPath`: starting from
`current`, return `undefined` as soon as `current == null`,
`typeof current !== "object"` or the segment is not a property, else step
into `current[segment]`. -/
def getValueByPathSegs : JsonVal → List String → Option JsonVal
  | current, [] => some current
  | current, seg :: rest =>
    match objIndex current seg with
    | none => none
    | some v => getValueByPathSegs v rest

/-- src/server.js `getValueByPath(obj, path)`: split `path` on `"."` and walk. -/
def getValueByPath (o : JsonVal) (path : String) : Option JsonVal :=
  getValueByPathSegs o (jsSplitDot path)

end Server

namespace P0

/-- The reduce of src/unnamed/part_000 `getByPath`:
`(acc, key) => (acc && acc[key] !== undefined ? acc[key] : undefined)`.
A falsy accumulator, or a key that is not a defined property, turns the
accumulator into `undefined`, which then propagates. -/
def getByPathSegs : Option JsonVal → List String → Option JsonVal
  | acc, [] => acc
  | none, _ :: rest => getByPathSegs none rest
  | some a, key :: rest =>
    if jsTruthy a then
      match jsIndex a key with
      | some v => getByPathSegs (some v) rest
      | none => getByPathSegs none rest
    else getByPathSegs none rest

/-- src/unnamed/part_000 `getByPath(obj, path)`: `undefined` for a falsy path,
else reduce over the dot-split segments. -/
def getByPath (o : JsonVal) (path : String) : Option JsonVal :=
  if path = "" then none
  else getByPathSegs (some o) (jsSplitDot path)

end P0

/-- Declarative traversal for src/server.js `getValueByPath`: each segment is
stepped through an object/array own property. -/
inductive ReachS : JsonVal → List String → JsonVal → Prop where
  | nil (v : JsonVal) : ReachS v [] v
  | cons {v w r : JsonVal} {seg : String} {rest : List String} :
      objIndex v seg = some w → ReachS w rest r → ReachS v (seg :: rest) r

/-- Declarative traversal for src/unnamed/part_000 `getByPath`: each step
requires a truthy accumulator and a defined property. -/
inductive ReachP : JsonVal → List String → JsonVal → Prop where
  | nil (v : JsonVal) : ReachP v [] v
  | cons {v w r : JsonVal} {key : String} {rest : List String} :
      jsTruthy v = true → jsIndex v key = some w → ReachP w rest r →
      ReachP v (key :: rest) r

theorem getValueByPathSegs_iff_reachS (v : JsonVal) (segs : List String) (r : JsonVal) :
    Server.getValueByPathSegs v segs = some r ↔ ReachS v segs r := by
  induction segs generalizing v with
  | nil =>
    simp only [Server.getValueByPathSegs, Option.some.injEq]
    constructor
    · rintro rfl; exact ReachS.nil v
    · rintro h; cases h; rfl
  | cons seg rest ih =>
    simp only [Server.getValueByPathSegs]
    cases h : objIndex v seg with
    | none =>
      simp only [reduceCtorEq, false_iff]
      intro hr; cases hr with
      | cons h1 _ => rw [h] at h1; exact Option.noConfusion h1
    | some w =>
      rw [ih w]
      constructor
      · intro hr; exact ReachS.cons h hr
      · intro hr; cases hr with
        | cons h1 h2 => rw [h] at h1; cases h1; exact h2

theorem getByPathSegs_none (segs : List String) :
    P0.getByPathSegs none segs = none := by
  induction segs with
  | nil => rfl
  | cons k rest ih => simpa [P0.getByPathSegs] using ih

theorem getByPathSegs_iff_reachP (v : JsonVal) (segs : List String) (r : JsonVal) :
    P0.getByPathSegs (some v) segs = some r ↔ ReachP v segs r := by
  induction segs generalizing v with
  | nil =>
    simp only [P0.getByPathSegs, Option.some.injEq]
    constructor
    · rintro rfl; exact ReachP.nil v
    · rintro h; cases h; rfl
  | cons key rest ih =>
    simp only [P0.getByPathSegs]
    by_cases ht : jsTruthy v = true
    · rw [if_pos ht]
      cases h : jsIndex v key with
      | none =>
        rw [getByPathSegs_none]
        simp only [reduceCtorEq, false_iff]
        intro hr; cases hr with
        | cons _ h2 _ => rw [h] at h2; exact Option.noConfusion h2
      | some w =>
        rw [ih w]
        constructor
        · intro hr; exact ReachP.cons ht h hr
        · intro hr; cases hr with
          | cons _ h2 h3 => rw [h] at h2; cases h2; exact h3
    · rw [if_neg ht, getByPathSegs_none]
      simp only [reduceCtorEq, false_iff]
      intro hr; cases hr with
      | cons h1 _ _ => exact ht h1

/-- C10: the dotted-path lookup helpers are total: for every value and every
dot-separated path, `getValueByPath` (src/server.js) and `getByPath`
(src/unnamed/part_000) terminate with a result that is either `undefined`
(`none`) or the value reached by traversing every segment — each function
agrees exactly with its declarative traversal relation, so malformed payload
shapes cannot crash placeholder validation or filename building. -/
theorem c10_path_lookup_total_and_correct :
    (∀ (o : JsonVal) (path : String) (r : JsonVal),
        Server.getValueByPath o path = some r ↔ ReachS o (jsSplitDot path) r) ∧
    (∀ (o : JsonVal) (path : String),
        Server.getValueByPath o path = none ∨
          ∃ r, Server.getValueByPath o path = some r ∧ ReachS o (jsSplitDot path) r) ∧
    (∀ (o : JsonVal) (path : String) (r : JsonVal),
        P0.getByPath o path = some r ↔ path ≠ "" ∧ ReachP o (jsSplitDot path) r) ∧
    (∀ (o : JsonVal) (path : String),
        P0.getByPath o path = none ∨
          ∃ r, P0.getByPath o path = some r ∧ ReachP o (jsSplitDot path) r) := by
  have hS : ∀ (o : JsonVal) (path : String) (r : JsonVal),
      Server.getValueByPath o path = some r ↔ ReachS o (jsSplitDot path) r := by
    intro o path r
    exact getValueByPathSegs_iff_reachS o (jsSplitDot path) r
  have hP : ∀ (o : JsonVal) (path : String) (r : JsonVal),
      P0.getByPath o path = some r ↔ path ≠ "" ∧ ReachP o (jsSplitDot path) r := by
    intro o path r
    unfold P0.getByPath
    by_cases hp : path = ""
    · rw [if_pos hp]
      simp [hp]
    · rw [if_neg hp]
      rw [getByPathSegs_iff_reachP]
      simp [hp]
  refine ⟨hS, ?_, hP, ?_⟩
  · intro o path
    cases h : Server.getValueByPath o path with
    | none => exact Or.inl rfl
    | some r => exact Or.inr ⟨r, rfl, (hS o path r).mp h⟩
  · intro o path
    cases h : P0.getByPath o path with
    | none => exact Or.inl rfl
    | some r => exact Or.inr ⟨r, rfl, ((hP o path r).mp h).2⟩

/-- JS whitespace for `String.prototype.trim` (ASCII subset). -/
def isJsSpace (c : Char) : Bool :=
  c = ' ' ∨ c = '\t' ∨ c = '\n' ∨ c = '\r' ∨ c = '\x0b' ∨ c = '\x0c'

/-- JS `s.trim()`: strip leading and trailing whitespace. -/
def jsTrim (s : String) : String :=
  String.mk (((s.data.dropWhile isJsSpace).reverse.dropWhile isJsSpace).reverse)

/-- JS `s.toLowerCase()` (ASCII lowering). -/
def jsToLower (s : String) : String :=
  String.mk (s.data.map Char.toLower)

/-- JS `s.endsWith(suffix)`. -/
def jsEndsWith (s suff : String) : Bool :=
  s.data.reverse.take suff.data.length = suff.data.reverse

/-- Falsiness of an environment variable or sheet cell
(`undefined` or the empty string). -/
def envFalsy : Option String → Bool
  | none => true
  | some s => s = ""

namespace Server

/-- src/server.js `parseBoolean(value)` on a sheet cell (string, or
`undefined` for a column missing from the header): `undefined` is false, else
the trimmed lowercased text must be one of "true", "1", "yes". -/
def parseBoolean : Option String → Bool
  | none => false
  | some v => ["true", "1", "yes"].contains (jsToLower (jsTrim v))

/-- src/server.js `parseJsonArray(raw, fieldName)`.  `JSON.parse` is the
oracle `jp` (`.error` = the exception message it throws).  A falsy cell gives
`[]`; a parse failure, or a parsed value that is not an array, throws an
error naming the field (the inner "must be a JSON array" error is itself
caught and re-wrapped by the catch block). -/
def parseJsonArray (jp : String → Except String JsonVal) :
    Option String → String → Except String (List JsonVal)
  | none, _ => .ok []
  | some raw, fieldName =>
    if raw = "" then .ok []
    else
      match jp raw with
      | .error em => .error ("Invalid JSON in " ++ fieldName ++ ": " ++ em)
      | .ok (.arr l) => .ok l
      | .ok _ =>
        .error ("Invalid JSON in " ++ fieldName ++ ": " ++ fieldName
          ++ " must be a JSON array")

end Server

namespace P0

/-- src/unnamed/part_000 `toBool(v)` on a sheet cell. -/
def toBool : Option String → Bool
  | none => false
  | some v => ["true", "1", "yes", "y", "si", "sí"].contains (jsToLower (jsTrim v))

/-- src/unnamed/part_000 `safeJsonParse(str, fallback)`: non-string input or a
parse failure yields the fallback; it never throws. -/
def safeJsonParse (jp : String → Except String JsonVal) :
    Option String → JsonVal → JsonVal
  | none, fallback => fallback
  | some s, fallback =>
    match jp s with
    | .error _ => fallback
    | .ok v => v

end P0

/-- C7: defensive JSON-array parsing, inconsistent between the two
implementations.  src/server.js `parseJsonArray`: `[]` for an absent or empty
cell, the parsed list for a valid JSON array, and an error naming the field
for invalid JSON or a non-array JSON value.  src/unnamed/part_000
`safeJsonParse`: total (never throws), returning the fallback for non-string
input or invalid JSON, and the parsed value otherwise. -/
theorem c7_json_array_parsing_defensive :
    (∀ (jp : String → Except String JsonVal) (f : String),
        Server.parseJsonArray jp none f = .ok [] ∧
        Server.parseJsonArray jp (some "") f = .ok []) ∧
    (∀ (jp : String → Except String JsonVal) (raw f : String) (l : List JsonVal),
        raw ≠ "" → jp raw = .ok (.arr l) →
        Server.parseJsonArray jp (some raw) f = .ok l) ∧
    (∀ (jp : String → Except String JsonVal) (raw f em : String),
        raw ≠ "" → jp raw = .error em →
        Server.parseJsonArray jp (some raw) f =
          .error ("Invalid JSON in " ++ f ++ ": " ++ em)) ∧
    (∀ (jp : String → Except String JsonVal) (raw f : String) (v : JsonVal),
        raw ≠ "" → jp raw = .ok v → (∀ l, v ≠ .arr l) →
        Server.parseJsonArray jp (some raw) f =
          .error ("Invalid JSON in " ++ f ++ ": " ++ f ++ " must be a JSON array")) ∧
    (∀ (jp : String → Except String JsonVal) (fb : JsonVal),
        P0.safeJsonParse jp none fb = fb) ∧
    (∀ (jp : String → Except String JsonVal) (s em : String) (fb : JsonVal),
        jp s = .error em → P0.safeJsonParse jp (some s) fb = fb) ∧
    (∀ (jp : String → Except String JsonVal) (s : String) (v fb : JsonVal),
        jp s = .ok v → P0.safeJsonParse jp (some s) fb = v) := by
  refine ⟨?_, ?_, ?_, ?_, ?_, ?_, ?_⟩
  · intro jp f
    exact ⟨rfl, by simp [Server.parseJsonArray]⟩
  · intro jp raw f l hraw hjp
    simp [Server.parseJsonArray, hraw, hjp]
  · intro jp raw f em hraw hjp
    simp [Server.parseJsonArray, hraw, hjp]
  · intro jp raw f v hraw hjp hv
    cases v with
    | arr l => exact absurd rfl (hv l)
    | null => simp [Server.parseJsonArray, hraw, hjp]
    | bool b => simp [Server.parseJsonArray, hraw, hjp]
    | num n => simp [Server.parseJsonArray, hraw, hjp]
    | str s => simp [Server.parseJsonArray, hraw, hjp]
    | obj fs => simp [Server.parseJsonArray, hraw, hjp]
  · intro jp fb
    rfl
  · intro jp s em fb hjp
    simp [P0.safeJsonParse, hjp]
  · intro jp s v fb hjp
    simp [P0.safeJsonParse, hjp]

mutual

/-- JS `String(v)` conversion of an embedded value. -/
def jsToString : JsonVal → String
  | .null => "null"
  | .bool true => "true"
  | .bool false => "false"
  | .num n => toString n
  | .str s => s
  | .obj _ => "[object Object]"
  | .arr items => jsArrToString items

/-- JS `Array.prototype.toString`: members joined with `","`, null members
becoming empty. -/
def jsArrToString : List JsonVal → String
  | [] => ""
  | [.null] => ""
  | [x] => jsToString x
  | .null :: xs => "," ++ jsArrToString xs
  | x :: xs => jsToString x ++ "," ++ jsArrToString xs

end

/-- The index a column name resolves to: with duplicate header names the last
assignment to `obj[column]` wins. -/
def lastHeaderIdx (header : List String) (name : String) : Option Nat :=
  ((List.range header.length).filter (fun i => header[i]? = some name)).getLast?

/-- JS map-with-throw over a list (`Array.prototype.map` of a callback that
may throw): stops at the first error. -/
def mapMExcept {α β : Type} (f : α → Except String β) : List α → Except String (List β)
  | [] => .ok []
  | x :: xs =>
    match f x with
    | .error e => .error e
    | .ok y =>
      match mapMExcept f xs with
      | .error e => .error e
      | .ok ys => .ok (y :: ys)

namespace Server

/-- A field of a row object built by src/server.js `mapRowsToObjects`:
`obj[column] = row[index] ?? ''` for every header column; a name not in the
header is `undefined`. -/
def srvField (header row : List String) (name : String) : Option String :=
  match lastHeaderIdx header name with
  | some i => some ((row[i]?).getD "")
  | none => none

/-- A template record as normalized by src/server.js. -/
structure Template where
  template_key : Option String
  display_name : Option String
  engine : Option String
  doc_template_id : Option String
  output_filename_pattern : Option String
  required_placeholders : List JsonVal
  default_package_key : Option String
  keep_intermediate_doc : Bool
  version : Option String
  is_active : Bool
  notes : Option String

/-- An exam-package record as normalized by src/server.js. -/
structure ExamPackage where
  package_key : Option String
  display_name : Option String
  exams : List JsonVal
  default_template_key : Option String
  version : Option String
  is_active : Bool
  notes : Option String

/-- The body of the `.map` in src/server.js `normalizeTemplates` (an
interpolated `undefined` template key prints as "undefined"). -/
def templateOfRow (jp : String → Except String JsonVal) (header row : List String) :
    Except String Template :=
  match parseJsonArray jp (srvField header row "required_placeholders")
      ("templates." ++ (srvField header row "template_key").getD "undefined"
        ++ ".required_placeholders") with
  | .error e => .error e
  | .ok required =>
    .ok { template_key := srvField header row "template_key"
          display_name := srvField header row "display_name"
          engine := srvField header row "engine"
          doc_template_id := srvField header row "doc_template_id"
          output_filename_pattern := srvField header row "output_filename_pattern"
          required_placeholders := required
          default_package_key := srvField header row "default_package_key"
          keep_intermediate_doc := parseBoolean (srvField header row "keep_intermediate_doc")
          version := srvField header row "version"
          is_active := true
          notes := srvField header row "notes" }

/-- src/server.js `normalizeTemplates(rows)`: destructure header and data
rows, keep only rows whose `is_active` coerces to true, map to records
(a JSON error in any kept row aborts the whole load). -/
def normalizeTemplates (jp : String → Except String JsonVal) :
    List (List String) → Except String (List Template)
  | [] => .ok []
  | header :: dataRows =>
    mapMExcept (templateOfRow jp header)
      (dataRows.filter (fun row => parseBoolean (srvField header row "is_active")))

/-- The body of the `.map` in src/server.js `normalizeExamPackages`. -/
def packageOfRow (jp : String → Except String JsonVal) (header row : List String) :
    Except String ExamPackage :=
  match parseJsonArray jp (srvField header row "exams")
      ("exam_packages." ++ (srvField header row "package_key").getD "undefined"
        ++ ".exams") with
  | .error e => .error e
  | .ok exams =>
    .ok { package_key := srvField header row "package_key"
          display_name := srvField header row "display_name"
          exams := exams
          default_template_key := srvField header row "default_template_key"
          version := srvField header row "version"
          is_active := true
          notes := srvField header row "notes" }

/-- src/server.js `normalizeExamPackages(rows)`. -/
def normalizeExamPackages (jp : String → Except String JsonVal) :
    List (List String) → Except String (List ExamPackage)
  | [] => .ok []
  | header :: dataRows =>
    mapMExcept (packageOfRow jp header)
      (dataRows.filter (fun row => parseBoolean (srvField header row "is_active")))

/-- The config object assembled by src/server.js `loadConfig`. -/
structure Config where
  templates : List Template
  exam_packages : List ExamPackage

/-- JS strict equality between an embedded value and a JS string. -/
def jsStrictEqStr : JsonVal → String → Bool
  | .str s, t => s = t
  | _, _ => false

/-- JS strict equality between a possibly-undefined payload value and a
possibly-undefined record field (`undefined === undefined` is true). -/
def optValEqOptStr : Option JsonVal → Option String → Bool
  | some v, some s => jsStrictEqStr v s
  | none, none => true
  | _, _ => false

/-- src/server.js `resolveTemplate(config, payload)`: a truthy
`payload.template_key` is looked up directly (no fallback on a miss);
otherwise a truthy `payload.package_key` names a package whose
`default_template_key` is looked up; otherwise no template. -/
def resolveTemplate (cfg : Config) (payload : JsonVal) : Option Template :=
  if truthyProp payload "template_key" then
    cfg.templates.find?
      (fun t => optValEqOptStr (jsIndex payload "template_key") t.template_key)
  else if ¬ truthyProp payload "package_key" then none
  else
    match cfg.exam_packages.find?
        (fun p => optValEqOptStr (jsIndex payload "package_key") p.package_key) with
    | none => none
    | some pkg =>
      cfg.templates.find? (fun t => decide (t.template_key = pkg.default_template_key))

end Server

namespace P0

/-- src/unnamed/part_000 `rowsToObjects`: trimmed header names from the first
row. -/
def headersOf (rows : List (List String)) : List String :=
  match rows with
  | [] => []
  | h :: _ => h.map jsTrim

/-- src/unnamed/part_000 `rowsToObjects`: fewer than two rows give no
records; data rows with only blank cells are dropped. -/
def dataRowsOf (rows : List (List String)) : List (List String) :=
  match rows with
  | [] => []
  | [_] => []
  | _ :: rest => rest.filter (fun r => r.any (fun c => jsTrim c ≠ ""))

/-- A field of a part_000 row object: `obj[h] = r[i]` with no default, so a
short row leaves the field `undefined`. -/
def p0Field (headers row : List String) (name : String) : Option String :=
  match lastHeaderIdx headers name with
  | some i => row[i]?
  | none => none

/-- A template record as built by src/unnamed/part_000 `loadConfig`
(`required_placeholders` keeps whatever `safeJsonParse` returned, array or
not). -/
structure Template where
  template_key : Option String
  display_name : Option String
  engine : Option String
  doc_template_id : Option String
  output_filename_pattern : Option String
  required_placeholders : JsonVal
  default_package_key : Option String
  keep_intermediate_doc : Bool
  version : Option String
  is_active : Bool
  notes : Option String

/-- An exam-package record as built by src/unnamed/part_000 `loadConfig`. -/
structure ExamPackage where
  package_key : Option String
  display_name : Option String
  exams : JsonVal
  default_template_key : Option String
  version : Option String
  is_active : Bool
  notes : Option String

/-- The template mapping and `is_active` filter of src/unnamed/part_000
`loadConfig`. -/
def templatesOf (jp : String → Except String JsonVal) (rows : List (List String)) :
    List Template :=
  let headers := headersOf rows
  ((dataRowsOf rows).map (fun r =>
    { template_key := p0Field headers r "template_key"
      display_name := p0Field headers r "display_name"
      engine := p0Field headers r "engine"
      doc_template_id := p0Field headers r "doc_template_id"
      output_filename_pattern := p0Field headers r "output_filename_pattern"
      required_placeholders := safeJsonParse jp (p0Field headers r "required_placeholders") (.arr [])
      default_package_key := p0Field headers r "default_package_key"
      keep_intermediate_doc := toBool (p0Field headers r "keep_intermediate_doc")
      version := p0Field headers r "version"
      is_active := toBool (p0Field headers r "is_active")
      notes := p0Field headers r "notes" : Template })).filter (fun t => t.is_active)

/-- The exam-package mapping and `is_active` filter of src/unnamed/part_000
`loadConfig`. -/
def packagesOf (jp : String → Except String JsonVal) (rows : List (List String)) :
    List ExamPackage :=
  let headers := headersOf rows
  ((dataRowsOf rows).map (fun r =>
    { package_key := p0Field headers r "package_key"
      display_name := p0Field headers r "display_name"
      exams := safeJsonParse jp (p0Field headers r "exams") (.arr [])
      default_template_key := p0Field headers r "default_template_key"
      version := p0Field headers r "version"
      is_active := toBool (p0Field headers r "is_active")
      notes := p0Field headers r "notes" : ExamPackage })).filter (fun p => p.is_active)

/-- The config object assembled by src/unnamed/part_000 `loadConfig`
(`byTemplateKey` / `byPackageKey` are derived lookups below). -/
structure Config where
  templates : List Template
  exam_packages : List ExamPackage

/-- The `Object.fromEntries` property-key conversion of a possibly-undefined
sheet cell (`undefined` stringifies to "undefined"). -/
def keyStr : Option String → String
  | some s => s
  | none => "undefined"

/-- Lookup `config.byTemplateKey[k]`: `Object.fromEntries` keeps the last entry for
a duplicated key; a missing key is `undefined`. -/
def byTemplateKey (ts : List Template) (k : String) : Option Template :=
  (ts.filter (fun t => keyStr t.template_key = k)).getLast?

/-- Lookup `config.byPackageKey[k]`. -/
def byPackageKey (ps : List ExamPackage) (k : String) : Option ExamPackage :=
  (ps.filter (fun p => keyStr p.package_key = k)).getLast?

/-- The direct lookup of src/unnamed/part_000 `POST /v1/render`:
`templateKey ? config.byTemplateKey[templateKey] : null`. -/
def resolveDirect (cfg : Config) (payload : JsonVal) : Option Template :=
  match jsIndex payload "template_key" with
  | some v => if jsTruthy v then byTemplateKey cfg.templates (jsToString v) else none
  | none => none

/-- The package fallback of src/unnamed/part_000 `POST /v1/render`: a truthy
`payload.package_key` names a package whose truthy `default_template_key` is
looked up in `byTemplateKey`. -/
def resolveViaPackage (cfg : Config) (payload : JsonVal) : Option Template :=
  match jsIndex payload "package_key" with
  | some pv =>
    if jsTruthy pv then
      match byPackageKey cfg.exam_packages (jsToString pv) with
      | some pkg =>
        match pkg.default_template_key with
        | some dk => if dk ≠ "" then byTemplateKey cfg.templates dk else none
        | none => none
      | none => none
    else none
  | none => none

/-- The template-resolution block of src/unnamed/part_000 `POST /v1/render`:
the direct lookup, and when it leaves no template (including a direct-lookup
miss) the package fallback. -/
def resolveTemplate (cfg : Config) (payload : JsonVal) : Option Template :=
  match resolveDirect cfg payload with
  | some t => some t
  | none => resolveViaPackage cfg payload

end P0

theorem mem_of_getLast?_eq_some {α : Type} {l : List α} {a : α}
    (h : l.getLast? = some a) : a ∈ l := by
  obtain ⟨hne, heq⟩ := List.mem_getLast?_eq_getLast (x := a) (l := l) (by simp [h])
  rw [heq]
  exact List.getLast_mem hne

theorem p0_byTemplateKey_mem {ts : List P0.Template} {k : String} {t : P0.Template}
    (h : P0.byTemplateKey ts k = some t) : t ∈ ts :=
  (List.mem_filter.mp (mem_of_getLast?_eq_some h)).1

theorem p0_resolveDirect_mem {cfg : P0.Config} {payload : JsonVal} {t : P0.Template}
    (h : P0.resolveDirect cfg payload = some t) : t ∈ cfg.templates := by
  unfold P0.resolveDirect at h
  cases htk : jsIndex payload "template_key" with
  | some v =>
    rw [htk] at h
    dsimp only at h
    by_cases hv : jsTruthy v = true
    · rw [if_pos hv] at h
      exact p0_byTemplateKey_mem h
    · rw [if_neg hv] at h
      exact Option.noConfusion h
  | none =>
    rw [htk] at h
    exact Option.noConfusion h

theorem p0_resolveViaPackage_mem {cfg : P0.Config} {payload : JsonVal} {t : P0.Template}
    (h : P0.resolveViaPackage cfg payload = some t) : t ∈ cfg.templates := by
  unfold P0.resolveViaPackage at h
  cases hpk : jsIndex payload "package_key" with
  | some pv =>
    rw [hpk] at h
    dsimp only at h
    by_cases hv : jsTruthy pv = true
    · rw [if_pos hv] at h
      cases hb : P0.byPackageKey cfg.exam_packages (jsToString pv) with
      | some pkg =>
        rw [hb] at h
        dsimp only at h
        cases hdk : pkg.default_template_key with
        | some dk =>
          rw [hdk] at h
          dsimp only at h
          by_cases hne : dk ≠ ""
          · rw [if_pos hne] at h
            exact p0_byTemplateKey_mem h
          · rw [if_neg hne] at h
            exact Option.noConfusion h
        | none =>
          rw [hdk] at h
          exact Option.noConfusion h
      | none =>
        rw [hb] at h
        exact Option.noConfusion h
    · rw [if_neg hv] at h
      exact Option.noConfusion h
  | none =>
    rw [hpk] at h
    exact Option.noConfusion h

theorem mapMExcept_ok_mem {α β : Type} (f : α → Except String β) :
    ∀ (l : List α) (res : List β), mapMExcept f l = .ok res →
      ∀ y ∈ res, ∃ x ∈ l, f x = .ok y := by
  intro l
  induction l with
  | nil =>
    intro res h y hy
    simp only [mapMExcept, Except.ok.injEq] at h
    subst h
    exact absurd hy (List.not_mem_nil y)
  | cons x xs ih =>
    intro res h y hy
    simp only [mapMExcept] at h
    cases hfx : f x with
    | error e => rw [hfx] at h; exact Except.noConfusion h
    | ok z =>
      rw [hfx] at h
      cases hrest : mapMExcept f xs with
      | error e => rw [hrest] at h; exact Except.noConfusion h
      | ok zs =>
        rw [hrest] at h
        cases h
        rcases List.mem_cons.mp hy with rfl | hy2
        · exact ⟨x, List.mem_cons_self x xs, hfx⟩
        · obtain ⟨x2, hx2, hfx2⟩ := ih zs hrest y hy2
          exact ⟨x2, List.mem_cons_of_mem x hx2, hfx2⟩

theorem mapMExcept_ok_length {α β : Type} (f : α → Except String β) :
    ∀ (l : List α) (res : List β), mapMExcept f l = .ok res →
      res.length = l.length := by
  intro l
  induction l with
  | nil =>
    intro res h
    simp only [mapMExcept, Except.ok.injEq] at h
    subst h
    rfl
  | cons x xs ih =>
    intro res h
    simp only [mapMExcept] at h
    cases hfx : f x with
    | error e => rw [hfx] at h; exact Except.noConfusion h
    | ok z =>
      rw [hfx] at h
      cases hrest : mapMExcept f xs with
      | error e => rw [hrest] at h; exact Except.noConfusion h
      | ok zs =>
        rw [hrest] at h
        cases h
        simp [ih zs hrest]

theorem templateOfRow_active {jp : String → Except String JsonVal}
    {header row : List String} {t : Server.Template}
    (h : Server.templateOfRow jp header row = .ok t) : t.is_active = true := by
  unfold Server.templateOfRow at h
  cases hp : Server.parseJsonArray jp (Server.srvField header row "required_placeholders")
      ("templates." ++ (Server.srvField header row "template_key").getD "undefined"
        ++ ".required_placeholders") with
  | error e => rw [hp] at h; exact Except.noConfusion h
  | ok req => rw [hp] at h; cases h; rfl

theorem packageOfRow_active {jp : String → Except String JsonVal}
    {header row : List String} {p : Server.ExamPackage}
    (h : Server.packageOfRow jp header row = .ok p) : p.is_active = true := by
  unfold Server.packageOfRow at h
  cases hp : Server.parseJsonArray jp (Server.srvField header row "exams")
      ("exam_packages." ++ (Server.srvField header row "package_key").getD "undefined"
        ++ ".exams") with
  | error e => rw [hp] at h; exact Except.noConfusion h
  | ok ex => rw [hp] at h; cases h; rfl

/-- C5: only active records are visible.  In src/server.js every normalized
template/package record has `is_active` hard-set to `true` and a sheet row
enters the config exactly when its `is_active` cell coerces to true (the
filtered row count equals the record count); in src/unnamed/part_000 the
records are filtered on the coerced flag; and template resolution only ever
returns a member of the (already filtered) config lists. -/
theorem c5_only_active_records_visible :
    (∀ (jp : String → Except String JsonVal) (rows : List (List String))
        (res : List Server.Template),
        Server.normalizeTemplates jp rows = .ok res → ∀ t ∈ res, t.is_active = true) ∧
    (∀ (jp : String → Except String JsonVal) (header : List String)
        (dataRows : List (List String)) (res : List Server.Template),
        Server.normalizeTemplates jp (header :: dataRows) = .ok res →
        res.length = (dataRows.filter
          (fun r => Server.parseBoolean (Server.srvField header r "is_active"))).length) ∧
    (∀ (jp : String → Except String JsonVal) (rows : List (List String))
        (res : List Server.ExamPackage),
        Server.normalizeExamPackages jp rows = .ok res → ∀ p ∈ res, p.is_active = true) ∧
    (∀ (jp : String → Except String JsonVal) (header : List String)
        (dataRows : List (List String)) (res : List Server.ExamPackage),
        Server.normalizeExamPackages jp (header :: dataRows) = .ok res →
        res.length = (dataRows.filter
          (fun r => Server.parseBoolean (Server.srvField header r "is_active"))).length) ∧
    (∀ (jp : String → Except String JsonVal) (rows : List (List String)),
        ∀ t ∈ P0.templatesOf jp rows, t.is_active = true) ∧
    (∀ (jp : String → Except String JsonVal) (rows : List (List String)),
        ∀ p ∈ P0.packagesOf jp rows, p.is_active = true) ∧
    (∀ (cfg : Server.Config) (payload : JsonVal) (t : Server.Template),
        Server.resolveTemplate cfg payload = some t → t ∈ cfg.templates) ∧
    (∀ (cfg : P0.Config) (payload : JsonVal) (t : P0.Template),
        P0.resolveTemplate cfg payload = some t → t ∈ cfg.templates) := by
  refine ⟨?_, ?_, ?_, ?_, ?_, ?_, ?_, ?_⟩
  · intro jp rows res h t ht
    cases rows with
    | nil =>
      simp only [Server.normalizeTemplates, Except.ok.injEq] at h
      subst h
      exact absurd ht (List.not_mem_nil t)
    | cons header dataRows =>
      simp only [Server.normalizeTemplates] at h
      obtain ⟨row, _, hrow⟩ := mapMExcept_ok_mem _ _ _ h t ht
      exact templateOfRow_active hrow
  · intro jp header dataRows res h
    simp only [Server.normalizeTemplates] at h
    exact mapMExcept_ok_length _ _ _ h
  · intro jp rows res h p hp
    cases rows with
    | nil =>
      simp only [Server.normalizeExamPackages, Except.ok.injEq] at h
      subst h
      exact absurd hp (List.not_mem_nil p)
    | cons header dataRows =>
      simp only [Server.normalizeExamPackages] at h
      obtain ⟨row, _, hrow⟩ := mapMExcept_ok_mem _ _ _ h p hp
      exact packageOfRow_active hrow
  · intro jp header dataRows res h
    simp only [Server.normalizeExamPackages] at h
    exact mapMExcept_ok_length _ _ _ h
  · intro jp rows t ht
    exact (List.mem_filter.mp ht).2
  · intro jp rows p hp
    exact (List.mem_filter.mp hp).2
  · intro cfg payload t h
    unfold Server.resolveTemplate at h
    by_cases h1 : truthyProp payload "template_key" = true
    · rw [if_pos h1] at h
      exact List.mem_of_find?_eq_some h
    · rw [if_neg h1] at h
      by_cases h2 : truthyProp payload "package_key" = true
      · rw [if_neg (by simp [h2])] at h
        cases hpkg : cfg.exam_packages.find?
            (fun p => Server.optValEqOptStr (jsIndex payload "package_key") p.package_key) with
        | none => rw [hpkg] at h; exact Option.noConfusion h
        | some pkg =>
          rw [hpkg] at h
          exact List.mem_of_find?_eq_some h
      · rw [if_pos (by simp [h2])] at h
        exact Option.noConfusion h
  · intro cfg payload t h
    unfold P0.resolveTemplate at h
    cases hd : P0.resolveDirect cfg payload with
    | some t0 =>
      rw [hd] at h
      simp only [Option.some.injEq] at h
      subst h
      exact p0_resolveDirect_mem hd
    | none =>
      rw [hd] at h
      exact p0_resolveViaPackage_mem h

/-- Concrete part_000 template for the C2 counterexample: active template with
key "t1". -/
def cexTemplateT1 : P0.Template :=
  { template_key := some "t1", display_name := some "Doc T1", engine := some "gdoc"
    doc_template_id := some "d1", output_filename_pattern := none
    required_placeholders := .arr [], default_package_key := none
    keep_intermediate_doc := false, version := some "1", is_active := true
    notes := none }

/-- Concrete part_000 package for the C2 counterexample: active package "p1"
whose default template key is "t1". -/
def cexPackageP1 : P0.ExamPackage :=
  { package_key := some "p1", display_name := some "Pack P1", exams := .arr []
    default_template_key := some "t1", version := some "1", is_active := true
    notes := none }

/-- Loaded config for the C2 counterexample. -/
def cexConfigC2 : P0.Config :=
  { templates := [cexTemplateT1], exam_packages := [cexPackageP1] }

/-- Render payload for the C2 counterexample: `template_key` is present (and
truthy) but matches no template, while `package_key` names "p1". -/
def cexPayloadC2 : JsonVal :=
  .obj [("template_key", .str "t2"), ("package_key", .str "p1")]

/-- C2 counterexample: in src/unnamed/part_000, with `template_key` present
in the payload but matching no active template, resolution does not yield
no-template (as the claim's "otherwise" chain requires): it falls back to the
package lookup and returns the package's default template, whose key "t1"
differs from the requested "t2". -/
theorem c2_counterexample_p0_fallback :
    jsIndex cexPayloadC2 "template_key" = some (.str "t2") ∧
    jsTruthy (.str "t2") = true ∧
    (∀ t ∈ cexConfigC2.templates, P0.keyStr t.template_key ≠ "t2") ∧
    P0.resolveTemplate cexConfigC2 cexPayloadC2 = some cexTemplateT1 ∧
    cexTemplateT1.template_key = some "t1" := by
  refine ⟨rfl, by decide, ?_, rfl, rfl⟩
  intro t ht
  have h1 : t = cexTemplateT1 := by
    simpa [cexConfigC2] using ht
  subst h1
  decide

/-- C2 amended: template resolution behaves as the claim states in
src/server.js — with a truthy `template_key` only the direct lookup is
consulted (a miss yields no template, with no fallback), otherwise a truthy
`package_key` selects the package's `default_template_key`, and with neither
there is no template.  In src/unnamed/part_000, however, a present
`template_key` that matches no active template falls back to the package
lookup instead of yielding no template; the fallback resolves the package's
truthy `default_template_key` and only both lookups failing yields none. -/
theorem c2_template_resolution :
    (∀ (cfg : Server.Config) (payload : JsonVal) (t : Server.Template),
        truthyProp payload "template_key" = true →
        Server.resolveTemplate cfg payload = some t →
        Server.optValEqOptStr (jsIndex payload "template_key") t.template_key = true) ∧
    (∀ (cfg : Server.Config) (payload : JsonVal),
        truthyProp payload "template_key" = true →
        (∀ t ∈ cfg.templates,
          ¬ Server.optValEqOptStr (jsIndex payload "template_key") t.template_key = true) →
        Server.resolveTemplate cfg payload = none) ∧
    (∀ (cfg : Server.Config) (payload : JsonVal),
        truthyProp payload "template_key" = false →
        truthyProp payload "package_key" = false →
        Server.resolveTemplate cfg payload = none) ∧
    (∀ (cfg : Server.Config) (payload : JsonVal) (pkg : Server.ExamPackage)
        (t : Server.Template),
        truthyProp payload "template_key" = false →
        truthyProp payload "package_key" = true →
        cfg.exam_packages.find?
          (fun p => Server.optValEqOptStr (jsIndex payload "package_key") p.package_key)
          = some pkg →
        Server.resolveTemplate cfg payload = some t →
        t.template_key = pkg.default_template_key) ∧
    (∀ (cfg : Server.Config) (payload : JsonVal),
        truthyProp payload "template_key" = false →
        truthyProp payload "package_key" = true →
        cfg.exam_packages.find?
          (fun p => Server.optValEqOptStr (jsIndex payload "package_key") p.package_key)
          = none →
        Server.resolveTemplate cfg payload = none) ∧
    (∀ (cfg : P0.Config) (payload : JsonVal) (t : P0.Template),
        P0.resolveDirect cfg payload = some t →
        P0.resolveTemplate cfg payload = some t) ∧
    (∀ (cfg : P0.Config) (payload : JsonVal) (v : JsonVal),
        jsIndex payload "template_key" = some v → jsTruthy v = true →
        P0.byTemplateKey cfg.templates (jsToString v) = none →
        P0.resolveTemplate cfg payload = P0.resolveViaPackage cfg payload) ∧
    (∀ (cfg : P0.Config) (payload : JsonVal),
        P0.resolveDirect cfg payload = none →
        P0.resolveTemplate cfg payload = P0.resolveViaPackage cfg payload) ∧
    (∀ (cfg : P0.Config) (payload : JsonVal) (pv : JsonVal) (pkg : P0.ExamPackage)
        (dk : String),
        jsIndex payload "package_key" = some pv → jsTruthy pv = true →
        P0.byPackageKey cfg.exam_packages (jsToString pv) = some pkg →
        pkg.default_template_key = some dk → dk ≠ "" →
        P0.resolveViaPackage cfg payload = P0.byTemplateKey cfg.templates dk) := by
  refine ⟨?_, ?_, ?_, ?_, ?_, ?_, ?_, ?_, ?_⟩
  · intro cfg payload t h1 h2
    unfold Server.resolveTemplate at h2
    rw [if_pos h1] at h2
    have h5 := List.find?_some h2
    simpa using h5
  · intro cfg payload h1 h2
    unfold Server.resolveTemplate
    rw [if_pos h1]
    exact List.find?_eq_none.mpr h2
  · intro cfg payload h1 h2
    unfold Server.resolveTemplate
    rw [if_neg (by simp [h1]), if_pos (by simp [h2])]
  · intro cfg payload pkg t h1 h2 h3 h4
    unfold Server.resolveTemplate at h4
    rw [if_neg (by simp [h1]), if_neg (by simp [h2]), h3] at h4
    have := List.find?_some h4
    simpa using this
  · intro cfg payload h1 h2 h3
    unfold Server.resolveTemplate
    rw [if_neg (by simp [h1]), if_neg (by simp [h2]), h3]
  · intro cfg payload t h
    unfold P0.resolveTemplate
    rw [h]
  · intro cfg payload v h1 h2 h3
    unfold P0.resolveTemplate P0.resolveDirect
    rw [h1]
    dsimp only
    rw [if_pos h2, h3]
  · intro cfg payload h
    unfold P0.resolveTemplate
    rw [h]
  · intro cfg payload pv pkg dk h1 h2 h3 h4 h5
    unfold P0.resolveViaPackage
    rw [h1]
    dsimp only
    rw [if_pos h2, h3]
    dsimp only
    rw [h4]
    dsimp only
    rw [if_pos h5]

/-- One left-to-right pass of the global token-replacement regex over the
characters: an open brace starts a candidate; a close brace with nonempty
collected content (which may itself contain open braces, as the regex class
only excludes the close brace) emits the expansion; a close brace
immediately after the open brace matches nothing and both braces stay
literal; end of input flushes a dangling candidate literally.  Replacement
text is not rescanned, as with `String.prototype.replace`. -/
def expandTokensAux (f : String → String) : Option (List Char) → List Char → List Char
  | none, [] => []
  | some content, [] => '\x7b' :: content
  | none, c :: rest =>
    if c = '\x7b' then expandTokensAux f (some []) rest
    else c :: expandTokensAux f none rest
  | some content, c :: rest =>
    if c = '\x7d' then
      if content = [] then '\x7b' :: '\x7d' :: expandTokensAux f none rest
      else (f (String.mk content)).data ++ expandTokensAux f none rest
    else expandTokensAux f (some (content ++ [c])) rest

/-- JS `s.replace(tokenRegexGlobal, (_, tok) => f tok)` for the
brace-delimited token pattern used by both filename builders. -/
def expandTokens (f : String → String) (s : String) : String :=
  String.mk (expandTokensAux f none s.data)

/-- Strip a literal pattern from the front of a character list. -/
def stripLit : List Char → List Char → Option (List Char)
  | [], rest => some rest
  | _ :: _, [] => none
  | p :: ps, c :: cs => if p = c then stripLit ps cs else none

/-- Fuel-indexed loop of a global literal replacement (the fuel is the input
length; every step consumes at least one character). -/
def replaceLitAux (pat rep : List Char) : Nat → List Char → List Char
  | 0, l => l
  | _ + 1, [] => []
  | fuel + 1, c :: cs =>
    match pat, stripLit pat (c :: cs) with
    | _ :: _, some rest => rep ++ replaceLitAux pat rep fuel rest
    | _, _ => c :: replaceLitAux pat rep fuel cs

/-- JS `s.replace(/literal/g, rep)`: non-overlapping, left to right,
replacement text not rescanned. -/
def replaceLit (s pat rep : String) : String :=
  String.mk (replaceLitAux pat.data rep.data s.data.length s.data)

/-- The final step of both filename builders: append `.pdf` unless the name
already ends with it case-insensitively. -/
def pdfSuffix (s : String) : String :=
  if jsEndsWith (jsToLower s) ".pdf" then s else s ++ ".pdf"

/-- JS `s.replace(/[\\/]/g, "_")`: both path separators become
underscores. -/
def sanitizeSlashes (s : String) : String :=
  String.mk (s.data.map (fun c => if c = '/' ∨ c = '\\' then '_' else c))

namespace Server

/-- src/server.js `buildPdfFileName(pattern, payload)`, with the date token
(derived from the wall clock, `toISOString().slice(0,10)` without dashes)
passed in: expand the literal date token, then every brace token via
`getValueByPath` (null/undefined become empty), replace path separators,
trim; an empty result falls back to `documento_` plus the date token; a
`.pdf` suffix is appended unless already present case-insensitively. -/
def buildPdfFileName (dateToken : String) (pattern : Option String)
    (payload : JsonVal) : String :=
  let pat :=
    match pattern with
    | some p => if p = "" then "documento_\x7bYYYYMMDD\x7d" else p
    | none => "documento_\x7bYYYYMMDD\x7d"
  let step1 := replaceLit pat "\x7bYYYYMMDD\x7d" dateToken
  let step2 := expandTokens (fun tok =>
    match getValueByPath payload tok with
    | none => ""
    | some .null => ""
    | some v => jsToString v) step1
  let base := jsTrim (sanitizeSlashes step2)
  pdfSuffix (if base = "" then "documento_" ++ dateToken else base)

end Server

namespace P0

/-- src/unnamed/part_000 `buildFilename(pattern, payload)`, with the
`fmtYYYYMMDD` wall-clock token passed in: expand every brace token (trimmed;
`YYYYMMDD` becomes the date, a path resolving to undefined/null/empty
becomes "NA"), replace path separators, and append `.pdf` unless already
present case-insensitively. -/
def buildFilename (ymd : String) (pattern : Option String) (payload : JsonVal) : String :=
  let pat :=
    match pattern with
    | some p => if p = "" then "output_\x7bYYYYMMDD\x7d_\x7bobject.run\x7d" else p
    | none => "output_\x7bYYYYMMDD\x7d_\x7bobject.run\x7d"
  let step1 := expandTokens (fun tok =>
    let t := jsTrim tok
    if t = "YYYYMMDD" then ymd
    else
      match getByPath payload t with
      | none => "NA"
      | some .null => "NA"
      | some (.str "") => "NA"
      | some v => jsToString v) pat
  pdfSuffix (sanitizeSlashes step1)

end P0

/-- A filename free of both path separators. -/
def noSlash (s : String) : Prop := ∀ c ∈ s.data, c ≠ '/' ∧ c ≠ '\\'

instance (s : String) : Decidable (noSlash s) :=
  List.decidableBAll (fun c => c ≠ '/' ∧ c ≠ '\\') s.data

theorem noSlash_sanitizeSlashes (s : String) : noSlash (sanitizeSlashes s) := by
  intro c hc
  simp only [sanitizeSlashes] at hc
  obtain ⟨a, _, ha⟩ := List.mem_map.mp hc
  by_cases h : a = '/' ∨ a = '\\'
  · rw [if_pos h] at ha
    subst ha
    exact ⟨by decide, by decide⟩
  · rw [if_neg h] at ha
    subst ha
    push_neg at h
    exact h

theorem noSlash_jsTrim {s : String} (h : noSlash s) : noSlash (jsTrim s) := by
  intro c hc
  apply h
  simp only [jsTrim] at hc
  rw [List.mem_reverse] at hc
  have h1 := (List.dropWhile_sublist isJsSpace).mem hc
  rw [List.mem_reverse] at h1
  exact (List.dropWhile_sublist isJsSpace).mem h1

theorem noSlash_append {s t : String} (hs : noSlash s) (ht : noSlash t) :
    noSlash (s ++ t) := by
  intro c hc
  rw [String.data_append] at hc
  rcases List.mem_append.mp hc with h | h
  · exact hs c h
  · exact ht c h

theorem jsEndsWith_append_pdf (s : String) :
    jsEndsWith (jsToLower (s ++ ".pdf")) ".pdf" = true := by
  simp only [jsEndsWith, jsToLower, String.data_append, List.map_append]
  have hp : (".pdf".data.map Char.toLower) = ".pdf".data := by decide
  rw [hp]
  have : (s.data.map Char.toLower ++ ".pdf".data).reverse.take ".pdf".data.length
      = ".pdf".data.reverse := by
    rw [List.reverse_append]
    have hlen : ".pdf".data.length = ".pdf".data.reverse.length := by simp
    rw [hlen, List.take_left]
  simp [this]

theorem noSlash_pdfSuffix {s : String} (h : noSlash s) : noSlash (pdfSuffix s) := by
  unfold pdfSuffix
  split
  · exact h
  · exact noSlash_append h (by decide)

theorem jsEndsWith_pdfSuffix (s : String) :
    jsEndsWith (jsToLower (pdfSuffix s)) ".pdf" = true := by
  unfold pdfSuffix
  split
  · assumption
  · exact jsEndsWith_append_pdf s

/-- C6: for every filename pattern (present, empty or absent) and payload,
both filename builders return a name with no `/` and no `\` character that
ends with ".pdf" compared case-insensitively, after expanding the date token
and every dotted-path payload token.  The date token itself (digits produced
from the wall clock) is assumed separator-free, as src/server.js interpolates
it unsanitized into the empty-name fallback. -/
theorem c6_filename_sanitized_pdf_suffix
    (dateToken : String) (pattern : Option String) (payload : JsonVal)
    (hdt : noSlash dateToken) :
    noSlash (Server.buildPdfFileName dateToken pattern payload) ∧
    jsEndsWith (jsToLower (Server.buildPdfFileName dateToken pattern payload)) ".pdf"
      = true ∧
    noSlash (P0.buildFilename dateToken pattern payload) ∧
    jsEndsWith (jsToLower (P0.buildFilename dateToken pattern payload)) ".pdf" = true := by
  have hdoc : noSlash "documento_" := by decide
  refine ⟨?_, ?_, ?_, ?_⟩
  · simp only [Server.buildPdfFileName]
    apply noSlash_pdfSuffix
    split
    · exact noSlash_append hdoc hdt
    · exact noSlash_jsTrim (noSlash_sanitizeSlashes _)
  · simp only [Server.buildPdfFileName]
    exact jsEndsWith_pdfSuffix _
  · simp only [P0.buildFilename]
    exact noSlash_pdfSuffix (noSlash_sanitizeSlashes _)
  · simp only [P0.buildFilename]
    exact jsEndsWith_pdfSuffix _

/-- C6 witness: a concrete run with a pattern whose payload value contains a
forward slash and a backslash still yields a separator-free ".pdf" name. -/
theorem c6_witness :
    noSlash "20261012" ∧
    noSlash (Server.buildPdfFileName "20261012"
      (some "informe_\x7bdeal.name\x7d_\x7bYYYYMMDD\x7d")
      (.obj [("deal", .obj [("name", .str "a/b\\c")])])) ∧
    jsEndsWith (jsToLower (Server.buildPdfFileName "20261012"
      (some "informe_\x7bdeal.name\x7d_\x7bYYYYMMDD\x7d")
      (.obj [("deal", .obj [("name", .str "a/b\\c")])]))) ".pdf" = true ∧
    noSlash (P0.buildFilename "20261012"
      (some "informe_\x7bdeal.name\x7d_\x7bYYYYMMDD\x7d")
      (.obj [("deal", .obj [("name", .str "a/b\\c")])])) ∧
    jsEndsWith (jsToLower (P0.buildFilename "20261012"
      (some "informe_\x7bdeal.name\x7d_\x7bYYYYMMDD\x7d")
      (.obj [("deal", .obj [("name", .str "a/b\\c")])]))) ".pdf" = true := by
  have h := c6_filename_sanitized_pdf_suffix "20261012"
    (some "informe_\x7bdeal.name\x7d_\x7bYYYYMMDD\x7d")
    (.obj [("deal", .obj [("name", .str "a/b\\c")])]) (by decide)
  exact ⟨by decide, h.1, h.2.1, h.2.2.1, h.2.2.2⟩

/-- Outcome of one `drive.files.get` existence check inside
src/unnamed/part_000 `waitForFile`: the file exists, the call failed with a
not-found error (message containing "file not found" or code 404), or it
failed with any other error. -/
inductive Check where
  | found
  | notFound
  | err (msg : String)

namespace P0

/-- The delay table of src/unnamed/part_000 `waitForFile` (ms). -/
def waitDelays : List Nat := [200, 350, 550, 800, 1200, 1600]

/-- The retry loop of src/unnamed/part_000 `waitForFile`: `probe i` is the
outcome of the i-th existence check.  Returns the result together with the
number of checks issued.  A found file returns true immediately; a
non-not-found error is rethrown immediately; a not-found error sleeps and
retries; exhausting the table throws the after-retries error. -/
def waitLoop (probe : Nat → Check) (fileId : String) :
    Nat → List Nat → Except String Bool × Nat
  | i, [] => (.error ("File not found (after retries): " ++ fileId), i)
  | i, _ :: rest =>
    match probe i with
    | .found => (.ok true, i + 1)
    | .err m => (.error m, i + 1)
    | .notFound => waitLoop probe fileId (i + 1) rest

/-- src/unnamed/part_000 `waitForFile(drive, fileId)`. -/
def waitForFile (probe : Nat → Check) (fileId : String) : Except String Bool × Nat :=
  waitLoop probe fileId 0 waitDelays

end P0

theorem waitLoop_checks_le (probe : Nat → Check) (fileId : String) :
    ∀ (ds : List Nat) (i : Nat), (P0.waitLoop probe fileId i ds).2 ≤ i + ds.length := by
  intro ds
  induction ds with
  | nil => intro i; simp [P0.waitLoop]
  | cons d rest ih =>
    intro i
    simp only [P0.waitLoop]
    cases probe i with
    | found => simp
    | err m => simp
    | notFound =>
      have := ih (i + 1)
      simp only [List.length_cons]
      omega

theorem waitLoop_found (probe : Nat → Check) (fileId : String) :
    ∀ (ds : List Nat) (i k : Nat), k < ds.length →
      (∀ j, j < k → probe (i + j) = .notFound) → probe (i + k) = .found →
      P0.waitLoop probe fileId i ds = (.ok true, i + k + 1) := by
  intro ds
  induction ds with
  | nil =>
    intro i k hk
    simp only [List.length_nil] at hk
    omega
  | cons d rest ih =>
    intro i k hk hbefore hfound
    simp only [P0.waitLoop]
    cases k with
    | zero =>
      simp only [Nat.add_zero] at hfound
      rw [hfound]
    | succ k0 =>
      have h0 : probe i = .notFound := by
        have := hbefore 0 (Nat.succ_pos k0)
        simpa using this
      rw [h0]
      have hk0 : k0 < rest.length := by
        simp only [List.length_cons] at hk
        omega
      have hrec := ih (i + 1) k0 hk0
        (fun j hj => by
          have := hbefore (j + 1) (by omega)
          have heq : i + (j + 1) = i + 1 + j := by omega
          rw [heq] at this
          exact this)
        (by
          have heq : i + 1 + k0 = i + (k0 + 1) := by omega
          rw [heq]
          exact hfound)
      rw [hrec]
      have heq2 : i + 1 + k0 + 1 = i + (k0 + 1) + 1 := by omega
      rw [heq2]

theorem waitLoop_err (probe : Nat → Check) (fileId : String) (m : String) :
    ∀ (ds : List Nat) (i k : Nat), k < ds.length →
      (∀ j, j < k → probe (i + j) = .notFound) → probe (i + k) = .err m →
      P0.waitLoop probe fileId i ds = (.error m, i + k + 1) := by
  intro ds
  induction ds with
  | nil =>
    intro i k hk
    simp only [List.length_nil] at hk
    omega
  | cons d rest ih =>
    intro i k hk hbefore herr
    simp only [P0.waitLoop]
    cases k with
    | zero =>
      simp only [Nat.add_zero] at herr
      rw [herr]
    | succ k0 =>
      have h0 : probe i = .notFound := by
        have := hbefore 0 (Nat.succ_pos k0)
        simpa using this
      rw [h0]
      have hk0 : k0 < rest.length := by
        simp only [List.length_cons] at hk
        omega
      have hrec := ih (i + 1) k0 hk0
        (fun j hj => by
          have := hbefore (j + 1) (by omega)
          have heq : i + (j + 1) = i + 1 + j := by omega
          rw [heq] at this
          exact this)
        (by
          have heq : i + 1 + k0 = i + (k0 + 1) := by omega
          rw [heq]
          exact herr)
      rw [hrec]
      have heq2 : i + 1 + k0 + 1 = i + (k0 + 1) + 1 := by omega
      rw [heq2]

theorem waitLoop_exhausted (probe : Nat → Check) (fileId : String) :
    ∀ (ds : List Nat) (i : Nat), (∀ j, j < ds.length → probe (i + j) = .notFound) →
      P0.waitLoop probe fileId i ds =
        (.error ("File not found (after retries): " ++ fileId), i + ds.length) := by
  intro ds
  induction ds with
  | nil => intro i h; simp [P0.waitLoop]
  | cons d rest ih =>
    intro i h
    simp only [P0.waitLoop]
    have h0 : probe i = .notFound := by
      have := h 0 (by simp)
      simpa using this
    rw [h0]
    have hrec := ih (i + 1) (fun j hj => by
      have := h (j + 1) (by simp only [List.length_cons]; omega)
      have heq : i + (j + 1) = i + 1 + j := by omega
      rw [heq] at this
      exact this)
    rw [hrec]
    simp only [List.length_cons]
    have heq2 : i + 1 + rest.length = i + (rest.length + 1) := by omega
    rw [heq2]

/-- C8: `waitForFile` (src/unnamed/part_000 only; src/server.js has no such
poll) is a bounded backoff loop over the strictly increasing delay table
200..1600 ms: it issues at most 6 existence checks, returns true as soon as a
check finds the file, rethrows a non-not-found error immediately, and after 6
not-found outcomes throws the after-retries error — so it terminates on every
probe behaviour. -/
theorem c8_waitForFile_bounded_backoff :
    P0.waitDelays.length = 6 ∧
    List.Chain' (· < ·) P0.waitDelays ∧
    P0.waitDelays.head? = some 200 ∧
    P0.waitDelays.getLast? = some 1600 ∧
    (∀ (probe : Nat → Check) (fileId : String),
        (P0.waitForFile probe fileId).2 ≤ 6) ∧
    (∀ (probe : Nat → Check) (fileId : String) (k : Nat), k < 6 →
        (∀ j, j < k → probe j = .notFound) → probe k = .found →
        P0.waitForFile probe fileId = (.ok true, k + 1)) ∧
    (∀ (probe : Nat → Check) (fileId : String) (k : Nat) (m : String), k < 6 →
        (∀ j, j < k → probe j = .notFound) → probe k = .err m →
        P0.waitForFile probe fileId = (.error m, k + 1)) ∧
    (∀ (probe : Nat → Check) (fileId : String),
        (∀ j, j < 6 → probe j = .notFound) →
        P0.waitForFile probe fileId =
          (.error ("File not found (after retries): " ++ fileId), 6)) := by
  refine ⟨by decide, ?_, by decide, by decide, ?_, ?_, ?_, ?_⟩
  · show List.Chain' (· < ·) [200, 350, 550, 800, 1200, 1600]
    refine List.chain'_cons.mpr ⟨by omega, ?_⟩
    refine List.chain'_cons.mpr ⟨by omega, ?_⟩
    refine List.chain'_cons.mpr ⟨by omega, ?_⟩
    refine List.chain'_cons.mpr ⟨by omega, ?_⟩
    refine List.chain'_cons.mpr ⟨by omega, ?_⟩
    exact List.chain'_singleton 1600
  · intro probe fileId
    have := waitLoop_checks_le probe fileId P0.waitDelays 0
    simpa using this
  · intro probe fileId k hk hb hf
    have := waitLoop_found probe fileId P0.waitDelays 0 k (by simpa using hk)
      (fun j hj => by simpa using hb j hj) (by simpa using hf)
    simpa [P0.waitForFile] using this
  · intro probe fileId k m hk hb he
    have := waitLoop_err probe fileId m P0.waitDelays 0 k (by simpa using hk)
      (fun j hj => by simpa using hb j hj) (by simpa using he)
    simpa [P0.waitForFile] using this
  · intro probe fileId h
    have := waitLoop_exhausted probe fileId P0.waitDelays 0
      (fun j hj => by simpa using h j (by simpa using hj))
    simpa [P0.waitForFile] using this

namespace Server

/-- The constant `CONFIG_TTL_MS = 60 * 1000` in src/server.js. -/
def CONFIG_TTL_MS : Int := 60 * 1000

/-- The module-level `configCache` object of src/server.js. -/
structure CacheState where
  expiresAt : Int
  data : Option Config

/-- src/server.js `loadConfig()`, with the two `Date.now()` readings
(`now` at entry, `now2` after the sheet reads resolve) and the combined
outcome of the two parallel `readSheet` calls passed in.  Returns the result,
the updated cache, and whether the spreadsheet was read. -/
def loadConfig (st : CacheState) (now now2 : Int)
    (fetch : Except String Config) : Except String Config × CacheState × Bool :=
  match st.data with
  | some d =>
    if now < st.expiresAt then (.ok d, st, false)
    else
      match fetch with
      | .error m => (.error m, st, true)
      | .ok cfg => (.ok cfg, { expiresAt := now2 + CONFIG_TTL_MS, data := some cfg }, true)
  | none =>
    match fetch with
    | .error m => (.error m, st, true)
    | .ok cfg => (.ok cfg, { expiresAt := now2 + CONFIG_TTL_MS, data := some cfg }, true)

end Server

namespace P0

/-- The module-level `CONFIG_CACHE` object of src/unnamed/part_000
(`ttlMs` is the constant 60000). -/
structure CacheState where
  ts : Int
  data : Option Config

/-- The fetch-and-store path of src/unnamed/part_000 `loadConfig` (the
spreadsheet-id guard sits after the cache check; the stored timestamp is the
`now` read at entry). -/
def loadConfigFetch (st : CacheState) (now : Int) (spreadsheetIdSet : Bool)
    (fetch : Except String Config) : Except String Config × CacheState × Bool :=
  if ¬ spreadsheetIdSet then (.error "Missing env: SHEETS_SPREADSHEET_ID", st, false)
  else
    match fetch with
    | .error m => (.error m, st, true)
    | .ok cfg => (.ok cfg, { ts := now, data := some cfg }, true)

/-- src/unnamed/part_000 `loadConfig(clients)`, with `Date.now()` and the
combined outcome of the two parallel `values.get` calls passed in. -/
def loadConfig (st : CacheState) (now : Int) (spreadsheetIdSet : Bool)
    (fetch : Except String Config) : Except String Config × CacheState × Bool :=
  match st.data with
  | some d =>
    if now - st.ts < 60000 then (.ok d, st, false)
    else loadConfigFetch st now spreadsheetIdSet fetch
  | none => loadConfigFetch st now spreadsheetIdSet fetch

end P0

/-- C9: `loadConfig` caches the parsed configuration for 60 seconds of
wall-clock time.  In both variants, a call made while a cached value exists
and less than 60000 ms have elapsed since it was stored returns the cached
object without reading the spreadsheet (in src/server.js the stored
`expiresAt` is the store-time reading of `Date.now()` plus
`CONFIG_TTL_MS`); once at least 60000 ms have elapsed, a call re-reads the
ranges and replaces the cached data wholesale with the fresh config. -/
theorem c9_config_cache_ttl :
    (∀ (d : Server.Config) (t now now2 : Int) (fetch : Except String Server.Config),
        now - t < 60000 →
        Server.loadConfig ⟨t + Server.CONFIG_TTL_MS, some d⟩ now now2 fetch
          = (.ok d, ⟨t + Server.CONFIG_TTL_MS, some d⟩, false)) ∧
    (∀ (d cfg : Server.Config) (t now now2 : Int),
        60000 ≤ now - t →
        Server.loadConfig ⟨t + Server.CONFIG_TTL_MS, some d⟩ now now2 (.ok cfg)
          = (.ok cfg, ⟨now2 + Server.CONFIG_TTL_MS, some cfg⟩, true)) ∧
    (∀ (d : P0.Config) (t now : Int) (sset : Bool) (fetch : Except String P0.Config),
        now - t < 60000 →
        P0.loadConfig ⟨t, some d⟩ now sset fetch = (.ok d, ⟨t, some d⟩, false)) ∧
    (∀ (d cfg : P0.Config) (t now : Int),
        60000 ≤ now - t →
        P0.loadConfig ⟨t, some d⟩ now true (.ok cfg)
          = (.ok cfg, ⟨now, some cfg⟩, true)) := by
  refine ⟨?_, ?_, ?_, ?_⟩
  · intro d t now now2 fetch h
    unfold Server.loadConfig
    dsimp only
    rw [if_pos (by simp only [Server.CONFIG_TTL_MS]; omega)]
  · intro d cfg t now now2 h
    unfold Server.loadConfig
    dsimp only
    rw [if_neg (by simp only [Server.CONFIG_TTL_MS]; omega)]
  · intro d t now sset fetch h
    unfold P0.loadConfig
    dsimp only
    rw [if_pos (by omega)]
  · intro d cfg t now h
    unfold P0.loadConfig
    dsimp only
    rw [if_neg (by omega)]
    rfl

/-- A sample part_000 template record for witnesses. -/
def sampleTemplate : P0.Template :=
  { template_key := some "tw", display_name := some "Doc W", engine := some "gdoc"
    doc_template_id := some "dw", output_filename_pattern := none
    required_placeholders := .arr [], default_package_key := none
    keep_intermediate_doc := false, version := some "1", is_active := true
    notes := none }

/-- C9 witness: concrete cache hit 59999 ms after storing, and a refresh at
60000 ms that replaces the data wholesale. -/
theorem c9_witness :
    ((1000 : Int) + 59999) - 1000 < 60000 ∧
    (60000 : Int) ≤ (1000 + 60000) - 1000 ∧
    P0.loadConfig ⟨1000, some ⟨[], []⟩⟩ (1000 + 59999) true (.ok ⟨[], []⟩)
      = (.ok ⟨[], []⟩, ⟨1000, some ⟨[], []⟩⟩, false) ∧
    P0.loadConfig ⟨1000, some ⟨[], []⟩⟩ (1000 + 60000) true
        (.ok ⟨[sampleTemplate], []⟩)
      = (.ok ⟨[sampleTemplate], []⟩, ⟨1000 + 60000, some ⟨[sampleTemplate], []⟩⟩, true) := by
  refine ⟨by omega, by omega, ?_, ?_⟩
  · exact (c9_config_cache_ttl.2.2.1 ⟨[], []⟩ 1000 (1000 + 59999) true (.ok ⟨[], []⟩)
      (by omega))
  · exact (c9_config_cache_ttl.2.2.2 ⟨[], []⟩ ⟨[sampleTemplate], []⟩ 1000 (1000 + 60000)
      (by omega))

/-- One external side effect of the render pipeline, in the order
attempted. -/
inductive Effect where
  | copy
  | batchUpdate
  | exportPdf
  | upload
  | deleteDoc
  | sellNote
deriving DecidableEq

/-- The fields requested from `drive.files.create`
(`id`, `name`, `webViewLink`). -/
structure PdfInfo where
  id : Option String
  name : Option String
  webViewLink : Option String
deriving DecidableEq

/-- The test `value === undefined || value === null || value === ''` that
both variants apply to a resolved placeholder value. -/
def isMissingValue : Option JsonVal → Bool
  | none => true
  | some .null => true
  | some (.str s) => s = ""
  | some _ => false

namespace Server

/-- Environment variables read by the src/server.js render path. -/
structure Env where
  renderApiKey : Option String
  sellPat : Option String
  sellBaseUrl : Option String

/-- Outcomes of the external calls a single src/server.js render may make,
in program order.  The catch-block cleanup delete is wrapped in its own
try/catch noop, so its outcome is discarded by the code and is not an
input here. -/
structure Oracle where
  copyRes : Except String String
  batchRes : Except String Unit
  exportRes : Except String Unit
  createRes : Except String PdfInfo
  deleteRes : Except String Unit
  sellRes : Except String JsonVal

/-- A JSON response of the src/server.js render endpoint. -/
structure Response where
  status : Nat
  error : Option String
  missing : Option (List String)
  pdf : Option PdfInfo
  note : Option JsonVal

/-- Shorthand for `res.status(s).json` of an error body. -/
def errResponse (status : Nat) (msg : String) : Response :=
  { status := status, error := some msg, missing := none, pdf := none, note := none }

/-- The required placeholders as `path.split(".")` consumes them: every
element must be a string, otherwise the filter callback throws a TypeError
that the route catch turns into a 500. -/
def asPathStrings : List JsonVal → Option (List String)
  | [] => some []
  | .str s :: rest => (asPathStrings rest).map (fun l => s :: l)
  | _ => none

/-- Whether `payload[key]` is literally JS `null`: destructuring with an
object default (`const { actor = {} } = payload`) keeps a literal null, so a
later property access on it throws a TypeError. -/
def isNullProp (v : JsonVal) (key : String) : Bool :=
  match jsIndex v key with
  | some .null => true
  | _ => false

/-- src/server.js `createSellNote(payload, template, pdf)`: skipped
(resolving null) without a truthy `sell.resource_type` and
`sell.resource_id`; throws if the Sell env vars are missing; then the note
lines are built, where a literal `payload.actor === null` makes the
`actor.email` read throw a TypeError before the fetch; otherwise the `fetch`
outcome decides (a non-ok response throws with the status and body in the
message, folded into the oracle's error).  Returns the outcome and whether
the HTTP call was made.  A literal `payload.sell === null` likewise makes
the destructured `sell.resource_type` access throw at the top. -/
def createSellNote (env : Env) (sellRes : Except String JsonVal)
    (payload : JsonVal) : Except String (Option JsonVal) × Bool :=
  match jsIndex payload "sell" with
  | some .null => (.error "Cannot read properties of null (reading resource_type)", false)
  | sv =>
    let sell := sv.getD (.obj [])
    if truthyProp sell "resource_type" && truthyProp sell "resource_id" then
      if envFalsy env.sellPat || envFalsy env.sellBaseUrl then
        (.error "SELL_PAT and SELL_BASE_URL are required to create Sell notes", false)
      else
        if isNullProp payload "actor" then
          (.error "Cannot read properties of null (reading email)", false)
        else
          match sellRes with
          | .ok v => (.ok (some v), true)
          | .error m => (.error m, true)
    else (.ok none, false)

/-- The tail of the src/server.js render route after `drive.files.create`
succeeded: the sell-note step, with `copiedStillSet` tracking whether
`copiedDocId` is still non-null when the catch block runs (it appends the
best-effort cleanup delete). -/
def finishSell (env : Env) (payload : JsonVal) (pdfC : PdfInfo)
    (sellRes : Except String JsonVal) (copiedStillSet : Bool) (effs : List Effect) :
    Response × List Effect :=
  match createSellNote env sellRes payload with
  | (.error m, called) =>
    let effs2 := effs ++ (if called then [.sellNote] else [])
    (errResponse 500 m, if copiedStillSet then effs2 ++ [.deleteDoc] else effs2)
  | (.ok none, called) =>
    ({ status := 200, error := none, missing := none, pdf := some pdfC, note := none },
      effs ++ (if called then [.sellNote] else []))
  | (.ok (some n), called) =>
    ({ status := 200, error := none, missing := none, pdf := some pdfC, note := some n },
      effs ++ (if called then [.sellNote] else []))

/-- The src/server.js render route between a successful `drive.files.create`
and the response: delete the intermediate copy unless
`template.keep_intermediate_doc` (a failed delete throws into the catch,
which best-effort deletes again), then the sell note. -/
def afterCreate (env : Env) (payload : JsonVal) (t : Template) (pdfC : PdfInfo)
    (o : Oracle) : Response × List Effect :=
  let effs0 : List Effect := [.copy, .batchUpdate, .exportPdf, .upload]
  if t.keep_intermediate_doc then
    finishSell env payload pdfC o.sellRes true effs0
  else
    match o.deleteRes with
    | .error m => (errResponse 500 m, effs0 ++ [.deleteDoc, .deleteDoc])
    | .ok _ => finishSell env payload pdfC o.sellRes false (effs0 ++ [.deleteDoc])

/-- src/server.js `POST /v1/render` after the api-key gate and config load:
resolve the template (400 on failure), filter the required placeholders that
resolve to undefined/null/empty (400 listing them), then copy, batch-update,
export, upload, optionally delete the intermediate doc, optionally create the
Sell note; any throw is caught, the intermediate doc (when still referenced)
is best-effort deleted, and a 500 carries the error message. -/
def renderHandler (env : Env) (cfg : Config) (payload : JsonVal) (o : Oracle) :
    Response × List Effect :=
  match resolveTemplate cfg payload with
  | none => (errResponse 400 "Unable to resolve template from template_key/package_key", [])
  | some t =>
    match asPathStrings t.required_placeholders with
    | none => (errResponse 500 "path.split is not a function", [])
    | some paths =>
      match paths.filter (fun p => isMissingValue (getValueByPath payload p)) with
      | missing@(_ :: _) =>
        ({ status := 400, error := some "Missing required placeholders",
           missing := some missing, pdf := none, note := none }, [])
      | [] =>
        match o.copyRes with
        | .error m => (errResponse 500 m, [.copy])
        | .ok _docId =>
          match o.batchRes with
          | .error m => (errResponse 500 m, [.copy, .batchUpdate, .deleteDoc])
          | .ok _ =>
            match o.exportRes with
            | .error m => (errResponse 500 m, [.copy, .batchUpdate, .exportPdf, .deleteDoc])
            | .ok _ =>
              match o.createRes with
              | .error m =>
                (errResponse 500 m, [.copy, .batchUpdate, .exportPdf, .upload, .deleteDoc])
              | .ok pdfC => afterCreate env payload t pdfC o

/-- src/server.js `requireApiKey` middleware wrapped around a handler: a
falsy `RENDER_API_KEY` always passes; otherwise a strict mismatch of the
`x-api-key` header answers 401 without running the handler. -/
def requireApiKey (envKey headerKey : Option String)
    (handler : Unit → Response × List Effect) : Response × List Effect :=
  if envFalsy envKey then handler ()
  else if headerKey ≠ envKey then (errResponse 401 "Unauthorized", [])
  else handler ()

end Server

/-- JS `Array.prototype.join` element conversion (null becomes empty). -/
def jsJoinElem : JsonVal → String
  | .null => ""
  | v => jsToString v

/-- JS `array.join(sep)`. -/
def jsJoin (sep : String) : List JsonVal → String
  | [] => ""
  | [v] => jsJoinElem v
  | v :: rest => jsJoinElem v ++ sep ++ jsJoin sep rest

namespace P0

/-- Environment variables read by the src/unnamed/part_000 render path
(`RENDER_API_KEY` and `SELL_PAT` default to the empty string). -/
structure Env where
  renderApiKey : Option String
  sellPat : Option String

/-- Outcomes of the external calls a single src/unnamed/part_000 render may
make, in program order; `wait1`/`wait2` probe the two `waitForFile` polls.
Both intermediate-doc deletes are inside `try {} catch {}` noops, so their
outcomes are discarded by the code and are not inputs here. -/
structure Oracle where
  copyRes : Except String String
  wait1 : Nat → Check
  batchRes : Except String Unit
  wait2 : Nat → Check
  exportRes : Except String Unit
  uploadRes : Except String PdfInfo
  sellRes : Except String JsonVal

/-- An error thrown inside the part_000 render pipeline: the route catch
responds with `e.statusCode || 500` and the message. -/
structure RenderErr where
  msg : String
  statusCode : Option Nat
deriving DecidableEq

/-- The success value of src/unnamed/part_000 `renderGoogleDocToPdf`. -/
structure RenderOut where
  pdf_file_id : Option String
  pdf_name : Option String
  pdf_web_view_url : Option String
  tmp_doc_id : Option String
deriving DecidableEq

/-- A JSON response of the src/unnamed/part_000 render endpoint. -/
structure Response where
  status : Nat
  error : Option String
  pdf : Option RenderOut
  note : Option JsonVal

/-- Shorthand for `res.status(s).json` of an error body. -/
def errResponse (status : Nat) (msg : String) : Response :=
  { status := status, error := some msg, pdf := none, note := none }

/-- The `required` list of `renderGoogleDocToPdf`:
`Array.isArray(template.required_placeholders) ? ... : []`. -/
def requiredOf (t : Template) : List JsonVal :=
  match t.required_placeholders with
  | .arr l => l
  | _ => []

/-- The call `getByPath(payload, path)` as the placeholder map callback evaluates it:
a falsy non-string path yields undefined (the `!path` guard), a truthy
non-string path throws a TypeError (`path.split` is not a function). -/
def pathValue (payload : JsonVal) : JsonVal → Except String (Option JsonVal)
  | .str s => .ok (getByPath payload s)
  | v => if jsTruthy v then .error "path.split is not a function" else .ok none

/-- The `missing` array collected by the placeholder map of
`renderGoogleDocToPdf` (elements are the original path values); the first
TypeError aborts. -/
def collectMissing (payload : JsonVal) : List JsonVal → Except String (List JsonVal)
  | [] => .ok []
  | p :: rest =>
    match pathValue payload p with
    | .error e => .error e
    | .ok v =>
      match collectMissing payload rest with
      | .error e => .error e
      | .ok ms => .ok (if isMissingValue v then p :: ms else ms)

/-- src/unnamed/part_000 `renderGoogleDocToPdf` from the second existence
poll on: export, upload, and the swallowed cleanup delete unless
`keep_intermediate_doc`. -/
def afterBatch (t : Template) (o : Oracle) (docId : String) (effs1 : List Effect) :
    Except RenderErr RenderOut × List Effect :=
  match (waitForFile o.wait2 docId).1 with
  | .error m => (.error ⟨m, none⟩, effs1)
  | .ok _ =>
    match o.exportRes with
    | .error m => (.error ⟨m, none⟩, effs1 ++ [.exportPdf])
    | .ok _ =>
      match o.uploadRes with
      | .error m => (.error ⟨m, none⟩, effs1 ++ [.exportPdf, .upload])
      | .ok up =>
        if t.keep_intermediate_doc then
          (.ok ⟨up.id, up.name, up.webViewLink, some docId⟩,
            effs1 ++ [.exportPdf, .upload])
        else
          (.ok ⟨up.id, up.name, up.webViewLink, none⟩,
            effs1 ++ [.exportPdf, .upload, .deleteDoc])

/-- src/unnamed/part_000 `renderGoogleDocToPdf` from a successful placeholder
validation on: batch update (skipped when there are no requests), then the
rest. -/
def afterValidate (t : Template) (o : Oracle) (docId : String)
    (required : List JsonVal) (effs : List Effect) :
    Except RenderErr RenderOut × List Effect :=
  match required with
  | [] => afterBatch t o docId effs
  | _ :: _ =>
    match o.batchRes with
    | .error m => (.error ⟨m, none⟩, effs ++ [.batchUpdate])
    | .ok _ => afterBatch t o docId (effs ++ [.batchUpdate])

/-- src/unnamed/part_000 `renderGoogleDocToPdf({clients, template, payload,
folderId})`: copy the template (no cleanup if the copy or the first poll
fails), poll for the copy, validate the required placeholders (a missing list
throws a 400-tagged error, deleting the copy first only when
`keep_intermediate_doc` is false; the delete outcome is swallowed), then the
rest of the pipeline.  No failure after the validation step deletes the
intermediate copy. -/
def renderGoogleDocToPdf (t : Template) (payload : JsonVal) (o : Oracle) :
    Except RenderErr RenderOut × List Effect :=
  match o.copyRes with
  | .error m => (.error ⟨m, none⟩, [.copy])
  | .ok docId =>
    match (waitForFile o.wait1 docId).1 with
    | .error m => (.error ⟨m, none⟩, [.copy])
    | .ok _ =>
      match collectMissing payload (requiredOf t) with
      | .error m => (.error ⟨m, none⟩, [.copy])
      | .ok missing =>
        match missing with
        | _ :: _ =>
          (.error ⟨"Missing required placeholders: " ++ jsJoin ", " missing, some 400⟩,
            if t.keep_intermediate_doc then [.copy] else [.copy, .deleteDoc])
        | [] => afterValidate t o docId (requiredOf t) [.copy]

/-- src/unnamed/part_000 `POST /v1/render` after the auth guard: client
construction and config load folded into `configRes`; template resolution
(400 on failure); the render pipeline; the optional Sell note
(`sell?.resource_type && sell?.resource_id`); the catch responds
`e.statusCode || 500` with the message. -/
def renderRoute (env : Env) (configRes : Except String Config) (payload : JsonVal)
    (o : Oracle) : Response × List Effect :=
  match configRes with
  | .error m => (errResponse 500 m, [])
  | .ok cfg =>
    match resolveTemplate cfg payload with
    | none => (errResponse 400 "template not found (template_key / package_key)", [])
    | some t =>
      match renderGoogleDocToPdf t payload o with
      | (.error e, effs) => (errResponse (e.statusCode.getD 500) e.msg, effs)
      | (.ok out, effs) =>
        let sellReq : Bool :=
          match jsIndex payload "sell" with
          | some sv => truthyProp sv "resource_type" && truthyProp sv "resource_id"
          | none => false
        if sellReq then
          if env.sellPat.getD "" = "" then
            (errResponse 500 "Missing env: SELL_PAT", effs)
          else
            match o.sellRes with
            | .error m => (errResponse 500 m, effs ++ [.sellNote])
            | .ok n =>
              ({ status := 200, error := none, pdf := some out, note := some n },
                effs ++ [.sellNote])
        else ({ status := 200, error := none, pdf := some out, note := none }, effs)

/-- src/unnamed/part_000 `authGuard` wrapped around a handler: an unset or
empty `RENDER_API_KEY` always passes; otherwise a strict mismatch of the
`x-api-key` header answers 401 without running the handler. -/
def authGuard (envKey headerKey : Option String)
    (handler : Unit → Response × List Effect) : Response × List Effect :=
  if envKey.getD "" = "" then handler ()
  else if headerKey ≠ some (envKey.getD "") then (errResponse 401 "unauthorized", [])
  else handler ()

end P0

theorem finishSell_cases (env : Server.Env) (payload : JsonVal) (pdfC : PdfInfo)
    (sellRes : Except String JsonVal) (copied : Bool) (effs : List Effect) :
    ((Server.finishSell env payload pdfC sellRes copied effs).1.status = 200 ∧
      ∃ b : Bool, (Server.finishSell env payload pdfC sellRes copied effs).2
        = effs ++ (if b then [Effect.sellNote] else [])) ∨
    ((Server.finishSell env payload pdfC sellRes copied effs).1.status = 500 ∧
      ∃ b : Bool, (Server.finishSell env payload pdfC sellRes copied effs).2
        = (effs ++ (if b then [Effect.sellNote] else []))
          ++ (if copied then [Effect.deleteDoc] else [])) := by
  unfold Server.finishSell
  rcases hcs : Server.createSellNote env sellRes payload with ⟨out, called⟩
  cases out with
  | error m =>
    refine Or.inr ⟨rfl, called, ?_⟩
    cases copied <;> simp
  | ok v =>
    cases v with
    | none => exact Or.inl ⟨rfl, called, rfl⟩
    | some n => exact Or.inl ⟨rfl, called, rfl⟩

theorem finishSell_500_delete (env : Server.Env) (payload : JsonVal) (pdfC : PdfInfo)
    (sellRes : Except String JsonVal) (effs : List Effect)
    (h : (Server.finishSell env payload pdfC sellRes true effs).1.status = 500) :
    Effect.deleteDoc ∈ (Server.finishSell env payload pdfC sellRes true effs).2 := by
  rcases finishSell_cases env payload pdfC sellRes true effs with ⟨h200, _⟩ | ⟨_, b, heff⟩
  · rw [h] at h200
    exact absurd h200 (by decide)
  · rw [heff]
    simp

theorem p0_afterBatch_spec (t : P0.Template) (o : P0.Oracle) (docId : String)
    (effs1 : List Effect) (h1 : Effect.deleteDoc ∉ effs1) :
    (∀ out effs, P0.afterBatch t o docId effs1 = (.ok out, effs) →
        (Effect.deleteDoc ∈ effs ↔ t.keep_intermediate_doc = false)) ∧
    (∀ e effs, P0.afterBatch t o docId effs1 = (.error e, effs) →
        e.statusCode = none ∧ Effect.deleteDoc ∉ effs) := by
  unfold P0.afterBatch
  cases hw : (P0.waitForFile o.wait2 docId).1 with
  | error m =>
    dsimp only
    refine ⟨?_, ?_⟩
    · intro out effs hr
      simp at hr
    · intro e effs hr
      simp only [Prod.mk.injEq, Except.error.injEq] at hr
      obtain ⟨rfl, rfl⟩ := hr
      exact ⟨rfl, h1⟩
  | ok b =>
    dsimp only
    cases he : o.exportRes with
    | error m =>
      dsimp only
      refine ⟨?_, ?_⟩
      · intro out effs hr
        simp at hr
      · intro e effs hr
        simp only [Prod.mk.injEq, Except.error.injEq] at hr
        obtain ⟨rfl, rfl⟩ := hr
        refine ⟨rfl, ?_⟩
        simp [h1]
    | ok u =>
      dsimp only
      cases hu : o.uploadRes with
      | error m =>
        dsimp only
        refine ⟨?_, ?_⟩
        · intro out effs hr
          simp at hr
        · intro e effs hr
          simp only [Prod.mk.injEq, Except.error.injEq] at hr
          obtain ⟨rfl, rfl⟩ := hr
          refine ⟨rfl, ?_⟩
          simp [h1]
      | ok up =>
        dsimp only
        by_cases hk : t.keep_intermediate_doc = true
        · rw [if_pos hk]
          refine ⟨?_, ?_⟩
          · intro out effs hr
            simp only [Prod.mk.injEq, Except.ok.injEq] at hr
            obtain ⟨rfl, rfl⟩ := hr
            simp [hk, h1]
          · intro e effs hr
            simp at hr
        · rw [if_neg hk]
          refine ⟨?_, ?_⟩
          · intro out effs hr
            simp only [Prod.mk.injEq, Except.ok.injEq] at hr
            obtain ⟨rfl, rfl⟩ := hr
            simp at hk
            simp [hk]
          · intro e effs hr
            simp at hr

theorem p0_afterValidate_spec (t : P0.Template) (o : P0.Oracle) (docId : String)
    (required : List JsonVal) (effs : List Effect) (h1 : Effect.deleteDoc ∉ effs) :
    (∀ out effs2, P0.afterValidate t o docId required effs = (.ok out, effs2) →
        (Effect.deleteDoc ∈ effs2 ↔ t.keep_intermediate_doc = false)) ∧
    (∀ e effs2, P0.afterValidate t o docId required effs = (.error e, effs2) →
        e.statusCode = none ∧ Effect.deleteDoc ∉ effs2) := by
  unfold P0.afterValidate
  cases required with
  | nil => exact p0_afterBatch_spec t o docId effs h1
  | cons p ps =>
    dsimp only
    cases hb : o.batchRes with
    | error m =>
      dsimp only
      refine ⟨?_, ?_⟩
      · intro out effs2 hr
        simp at hr
      · intro e effs2 hr
        simp only [Prod.mk.injEq, Except.error.injEq] at hr
        obtain ⟨rfl, rfl⟩ := hr
        refine ⟨rfl, ?_⟩
        simp [h1]
    | ok u =>
      dsimp only
      exact p0_afterBatch_spec t o docId (effs ++ [Effect.batchUpdate]) (by simp [h1])

theorem p0_render_cleanup (t : P0.Template) (payload : JsonVal) (o : P0.Oracle) :
    (∀ out effs, P0.renderGoogleDocToPdf t payload o = (.ok out, effs) →
        (Effect.deleteDoc ∈ effs ↔ t.keep_intermediate_doc = false)) ∧
    (∀ e effs, P0.renderGoogleDocToPdf t payload o = (.error e, effs) →
        e.statusCode = some 400 →
        (Effect.deleteDoc ∈ effs ↔ t.keep_intermediate_doc = false)) ∧
    (∀ e effs, P0.renderGoogleDocToPdf t payload o = (.error e, effs) →
        e.statusCode = none → Effect.deleteDoc ∉ effs) := by
  unfold P0.renderGoogleDocToPdf
  cases hc : o.copyRes with
  | error m =>
    dsimp only
    refine ⟨?_, ?_, ?_⟩
    · intro out effs hr
      simp at hr
    · intro e effs hr h400
      simp only [Prod.mk.injEq, Except.error.injEq] at hr
      obtain ⟨rfl, rfl⟩ := hr
      simp at h400
    · intro e effs hr _
      simp only [Prod.mk.injEq, Except.error.injEq] at hr
      obtain ⟨rfl, rfl⟩ := hr
      simp
  | ok docId =>
    dsimp only
    cases hw : (P0.waitForFile o.wait1 docId).1 with
    | error m =>
      dsimp only
      refine ⟨?_, ?_, ?_⟩
      · intro out effs hr
        simp at hr
      · intro e effs hr h400
        simp only [Prod.mk.injEq, Except.error.injEq] at hr
        obtain ⟨rfl, rfl⟩ := hr
        simp at h400
      · intro e effs hr _
        simp only [Prod.mk.injEq, Except.error.injEq] at hr
        obtain ⟨rfl, rfl⟩ := hr
        simp
    | ok b =>
      dsimp only
      cases hm : P0.collectMissing payload (P0.requiredOf t) with
      | error m =>
        dsimp only
        refine ⟨?_, ?_, ?_⟩
        · intro out effs hr
          simp at hr
        · intro e effs hr h400
          simp only [Prod.mk.injEq, Except.error.injEq] at hr
          obtain ⟨rfl, rfl⟩ := hr
          simp at h400
        · intro e effs hr _
          simp only [Prod.mk.injEq, Except.error.injEq] at hr
          obtain ⟨rfl, rfl⟩ := hr
          simp
      | ok missing =>
        dsimp only
        cases missing with
        | cons p ps =>
          dsimp only
          refine ⟨?_, ?_, ?_⟩
          · intro out effs hr
            simp at hr
          · intro e effs hr _
            simp only [Prod.mk.injEq, Except.error.injEq] at hr
            obtain ⟨rfl, rfl⟩ := hr
            by_cases hk : t.keep_intermediate_doc = true
            · rw [if_pos hk]
              simp [hk]
            · rw [if_neg hk]
              simp at hk
              simp [hk]
          · intro e effs hr hnone
            simp only [Prod.mk.injEq, Except.error.injEq] at hr
            obtain ⟨rfl, rfl⟩ := hr
            simp at hnone
        | nil =>
          dsimp only
          have hspec := p0_afterValidate_spec t o docId (P0.requiredOf t) [.copy] (by simp)
          refine ⟨hspec.1, ?_, ?_⟩
          · intro e effs hr h400
            have := (hspec.2 e effs hr).1
            rw [this] at h400
            exact absurd h400 (by simp)
          · intro e effs hr _
            exact (hspec.2 e effs hr).2

theorem server_afterCreate_spec (env : Server.Env) (payload : JsonVal)
    (t : Server.Template) (pdfC : PdfInfo) (o : Server.Oracle) :
    (∀ resp effs, Server.afterCreate env payload t pdfC o = (resp, effs) →
        resp.status = 200 →
        (Effect.deleteDoc ∈ effs ↔ t.keep_intermediate_doc = false)) ∧
    (∀ resp effs, Server.afterCreate env payload t pdfC o = (resp, effs) →
        resp.status = 500 → Effect.deleteDoc ∈ effs) := by
  unfold Server.afterCreate
  by_cases hk : t.keep_intermediate_doc = true
  · rw [if_pos hk]
    refine ⟨?_, ?_⟩
    · intro resp effs hr h200
      rcases finishSell_cases env payload pdfC o.sellRes true
          [Effect.copy, Effect.batchUpdate, Effect.exportPdf, Effect.upload] with
        ⟨hs, b, heff⟩ | ⟨hs, b, heff⟩
      · rw [hr] at heff
        simp only at heff
        subst heff
        cases b <;> simp [hk]
      · rw [hr] at hs
        simp only at hs
        rw [hs] at h200
        exact absurd h200 (by decide)
    · intro resp effs hr h500
      rcases finishSell_cases env payload pdfC o.sellRes true
          [Effect.copy, Effect.batchUpdate, Effect.exportPdf, Effect.upload] with
        ⟨hs, b, heff⟩ | ⟨hs, b, heff⟩
      · rw [hr] at hs
        simp only at hs
        rw [hs] at h500
        exact absurd h500 (by decide)
      · rw [hr] at heff
        simp only at heff
        subst heff
        simp
  · rw [if_neg hk]
    simp only [Bool.not_eq_true] at hk
    cases hd : o.deleteRes with
    | error m =>
      dsimp only
      refine ⟨?_, ?_⟩
      · intro resp effs hr h200
        simp only [Prod.mk.injEq] at hr
        rw [← hr.1] at h200
        simp [Server.errResponse] at h200
      · intro resp effs hr _
        simp only [Prod.mk.injEq] at hr
        rw [← hr.2]
        simp
    | ok u =>
      dsimp only
      refine ⟨?_, ?_⟩
      · intro resp effs hr h200
        rcases finishSell_cases env payload pdfC o.sellRes false
            ([Effect.copy, Effect.batchUpdate, Effect.exportPdf, Effect.upload]
              ++ [Effect.deleteDoc]) with
          ⟨hs, b, heff⟩ | ⟨hs, b, heff⟩
        · rw [hr] at heff
          simp only at heff
          subst heff
          simp [hk]
        · rw [hr] at hs
          simp only at hs
          rw [hs] at h200
          exact absurd h200 (by decide)
      · intro resp effs hr h500
        rcases finishSell_cases env payload pdfC o.sellRes false
            ([Effect.copy, Effect.batchUpdate, Effect.exportPdf, Effect.upload]
              ++ [Effect.deleteDoc]) with
          ⟨hs, b, heff⟩ | ⟨hs, b, heff⟩
        · rw [hr] at hs
          simp only at hs
          rw [hs] at h500
          exact absurd h500 (by decide)
        · rw [hr] at heff
          simp only at heff
          subst heff
          simp

theorem server_render_cleanup (env : Server.Env) (cfg : Server.Config)
    (payload : JsonVal) (o : Server.Oracle) :
    (∀ t resp effs, Server.resolveTemplate cfg payload = some t →
        Server.renderHandler env cfg payload o = (resp, effs) → resp.status = 200 →
        (Effect.deleteDoc ∈ effs ↔ t.keep_intermediate_doc = false)) ∧
    (∀ d resp effs, o.copyRes = .ok d →
        Server.renderHandler env cfg payload o = (resp, effs) →
        Effect.copy ∈ effs → resp.status = 500 → Effect.deleteDoc ∈ effs) := by
  unfold Server.renderHandler
  cases hres : Server.resolveTemplate cfg payload with
  | none =>
    dsimp only
    refine ⟨?_, ?_⟩
    · intro t resp effs ht
      exact absurd ht (by simp)
    · intro d resp effs _ hr hcpy _
      simp only [Prod.mk.injEq] at hr
      rw [← hr.2] at hcpy
      simp at hcpy
  | some t0 =>
    dsimp only
    cases hps : Server.asPathStrings t0.required_placeholders with
    | none =>
      dsimp only
      refine ⟨?_, ?_⟩
      · intro t resp effs ht hr h200
        simp only [Prod.mk.injEq] at hr
        rw [← hr.1] at h200
        simp [Server.errResponse] at h200
      · intro d resp effs _ hr hcpy _
        simp only [Prod.mk.injEq] at hr
        rw [← hr.2] at hcpy
        simp at hcpy
    | some paths =>
      dsimp only
      cases hf : paths.filter (fun p => isMissingValue (Server.getValueByPath payload p)) with
      | cons p ps =>
        dsimp only
        refine ⟨?_, ?_⟩
        · intro t resp effs ht hr h200
          simp only [Prod.mk.injEq] at hr
          rw [← hr.1] at h200
          simp at h200
        · intro d resp effs _ hr hcpy _
          simp only [Prod.mk.injEq] at hr
          rw [← hr.2] at hcpy
          simp at hcpy
      | nil =>
        dsimp only
        cases hc : o.copyRes with
        | error m =>
          dsimp only
          refine ⟨?_, ?_⟩
          · intro t resp effs ht hr h200
            simp only [Prod.mk.injEq] at hr
            rw [← hr.1] at h200
            simp [Server.errResponse] at h200
          · intro d resp effs hd _ _ _
            exact Except.noConfusion hd
        | ok docId =>
          dsimp only
          cases hb : o.batchRes with
          | error m =>
            dsimp only
            refine ⟨?_, ?_⟩
            · intro t resp effs ht hr h200
              simp only [Prod.mk.injEq] at hr
              rw [← hr.1] at h200
              simp [Server.errResponse] at h200
            · intro d resp effs _ hr _ _
              simp only [Prod.mk.injEq] at hr
              rw [← hr.2]
              simp
          | ok u1 =>
            dsimp only
            cases he : o.exportRes with
            | error m =>
              dsimp only
              refine ⟨?_, ?_⟩
              · intro t resp effs ht hr h200
                simp only [Prod.mk.injEq] at hr
                rw [← hr.1] at h200
                simp [Server.errResponse] at h200
              · intro d resp effs _ hr _ _
                simp only [Prod.mk.injEq] at hr
                rw [← hr.2]
                simp
            | ok u2 =>
              dsimp only
              cases hcr : o.createRes with
              | error m =>
                dsimp only
                refine ⟨?_, ?_⟩
                · intro t resp effs ht hr h200
                  simp only [Prod.mk.injEq] at hr
                  rw [← hr.1] at h200
                  simp [Server.errResponse] at h200
                · intro d resp effs _ hr _ _
                  simp only [Prod.mk.injEq] at hr
                  rw [← hr.2]
                  simp
              | ok pdfC =>
                dsimp only
                refine ⟨?_, ?_⟩
                · intro t resp effs ht hr h200
                  have htt : t0 = t := Option.some.inj ht
                  subst htt
                  exact (server_afterCreate_spec env payload t0 pdfC o).1 resp effs hr h200
                · intro d resp effs _ hr _ h500
                  exact (server_afterCreate_spec env payload t0 pdfC o).2 resp effs hr h500

/-- C3 amended: intermediate-document cleanup.  In src/server.js, a
successful render (status 200) deleted the intermediate copy exactly when
`keep_intermediate_doc` is false, and any failure (status 500) after a
successful copy best-effort deletes it (the catch-block delete is inside a
try/catch noop, so its own failure is discarded by construction of the
model).  In src/unnamed/part_000, a successful render likewise deletes the
copy iff `keep_intermediate_doc` is false, and the missing-placeholder
failure (statusCode 400) best-effort deletes it only when
`keep_intermediate_doc` is false — but any other mid-pipeline failure
(statusCode-less errors: first poll, batch update, export, upload) never
deletes the intermediate copy, contrary to the original claim. -/
theorem c3_intermediate_doc_cleanup :
    (∀ (env : Server.Env) (cfg : Server.Config) (payload : JsonVal) (o : Server.Oracle)
        (t : Server.Template) (resp : Server.Response) (effs : List Effect),
        Server.resolveTemplate cfg payload = some t →
        Server.renderHandler env cfg payload o = (resp, effs) → resp.status = 200 →
        (Effect.deleteDoc ∈ effs ↔ t.keep_intermediate_doc = false)) ∧
    (∀ (env : Server.Env) (cfg : Server.Config) (payload : JsonVal) (o : Server.Oracle)
        (d : String) (resp : Server.Response) (effs : List Effect),
        o.copyRes = .ok d →
        Server.renderHandler env cfg payload o = (resp, effs) →
        Effect.copy ∈ effs → resp.status = 500 → Effect.deleteDoc ∈ effs) ∧
    (∀ (t : P0.Template) (payload : JsonVal) (o : P0.Oracle) (out : P0.RenderOut)
        (effs : List Effect),
        P0.renderGoogleDocToPdf t payload o = (.ok out, effs) →
        (Effect.deleteDoc ∈ effs ↔ t.keep_intermediate_doc = false)) ∧
    (∀ (t : P0.Template) (payload : JsonVal) (o : P0.Oracle) (e : P0.RenderErr)
        (effs : List Effect),
        P0.renderGoogleDocToPdf t payload o = (.error e, effs) →
        e.statusCode = some 400 →
        (Effect.deleteDoc ∈ effs ↔ t.keep_intermediate_doc = false)) ∧
    (∀ (t : P0.Template) (payload : JsonVal) (o : P0.Oracle) (e : P0.RenderErr)
        (effs : List Effect),
        P0.renderGoogleDocToPdf t payload o = (.error e, effs) →
        e.statusCode = none → Effect.deleteDoc ∉ effs) := by
  refine ⟨?_, ?_, ?_, ?_, ?_⟩
  · intro env cfg payload o t resp effs h1 h2 h3
    exact (server_render_cleanup env cfg payload o).1 t resp effs h1 h2 h3
  · intro env cfg payload o d resp effs h1 h2 h3 h4
    exact (server_render_cleanup env cfg payload o).2 d resp effs h1 h2 h3 h4
  · intro t payload o out effs h
    exact (p0_render_cleanup t payload o).1 out effs h
  · intro t payload o e effs h h400
    exact (p0_render_cleanup t payload o).2.1 e effs h h400
  · intro t payload o e effs h hnone
    exact (p0_render_cleanup t payload o).2.2 e effs h hnone

/-- Concrete part_000 template for the C3 counterexample: cleanup requested
(`keep_intermediate_doc` false), one required placeholder. -/
def c3Template : P0.Template :=
  { template_key := some "t1", display_name := some "Doc", engine := some "gdoc"
    doc_template_id := some "d1", output_filename_pattern := none
    required_placeholders := .arr [.str "a"], default_package_key := none
    keep_intermediate_doc := false, version := some "1", is_active := true
    notes := none }

/-- Payload for the C3 counterexample (placeholder present, so validation
passes). -/
def c3Payload : JsonVal := .obj [("a", .str "x")]

/-- Oracle for the C3 counterexample: the copy succeeds, both polls find the
file at once, the batch update succeeds, and the PDF export fails. -/
def c3Oracle : P0.Oracle :=
  { copyRes := .ok "doc1", wait1 := fun _ => .found, batchRes := .ok ()
    wait2 := fun _ => .found, exportRes := .error "boom"
    uploadRes := .ok ⟨some "f", some "n", some "u"⟩, sellRes := .ok .null }

/-- C3 counterexample: in src/unnamed/part_000, an export failure after the
copy was created (status 500, message passed through) leaves the render with
no delete of the intermediate document — the claimed best-effort cleanup on
mid-pipeline failure does not happen in this variant. -/
theorem c3_counterexample_p0_no_cleanup :
    c3Oracle.copyRes = .ok "doc1" ∧
    P0.renderGoogleDocToPdf c3Template c3Payload c3Oracle
      = (.error ⟨"boom", none⟩, [.copy, .batchUpdate, .exportPdf]) ∧
    Effect.deleteDoc ∉ (P0.renderGoogleDocToPdf c3Template c3Payload c3Oracle).2 ∧
    (P0.renderRoute ⟨none, none⟩ (.ok ⟨[c3Template], []⟩)
        (.obj [("template_key", .str "t1"), ("a", .str "x")]) c3Oracle).1
      = P0.errResponse 500 "boom" ∧
    Effect.deleteDoc ∉ (P0.renderRoute ⟨none, none⟩ (.ok ⟨[c3Template], []⟩)
        (.obj [("template_key", .str "t1"), ("a", .str "x")]) c3Oracle).2 := by
  refine ⟨rfl, rfl, by decide, rfl, by decide⟩

theorem p0_route_of_render_error (env : P0.Env) (configRes : Except String P0.Config)
    (payload : JsonVal) (o : P0.Oracle) (cfg : P0.Config) (t : P0.Template)
    (e : P0.RenderErr) (effs : List Effect)
    (h1 : configRes = .ok cfg) (h2 : P0.resolveTemplate cfg payload = some t)
    (h3 : P0.renderGoogleDocToPdf t payload o = (.error e, effs)) :
    P0.renderRoute env configRes payload o
      = (P0.errResponse (e.statusCode.getD 500) e.msg, effs) := by
  unfold P0.renderRoute
  rw [h1]
  dsimp only
  rw [h2]
  dsimp only
  rw [h3]

theorem p0_render_export_needs_validation (t : P0.Template) (payload : JsonVal)
    (o : P0.Oracle)
    (h : Effect.exportPdf ∈ (P0.renderGoogleDocToPdf t payload o).2 ∨
         Effect.upload ∈ (P0.renderGoogleDocToPdf t payload o).2) :
    P0.collectMissing payload (P0.requiredOf t) = .ok [] := by
  unfold P0.renderGoogleDocToPdf at h
  cases hc : o.copyRes with
  | error m =>
    rw [hc] at h
    dsimp only at h
    rcases h with h | h <;> simp at h
  | ok docId =>
    rw [hc] at h
    dsimp only at h
    cases hw : (P0.waitForFile o.wait1 docId).1 with
    | error m =>
      rw [hw] at h
      dsimp only at h
      rcases h with h | h <;> simp at h
    | ok b =>
      rw [hw] at h
      dsimp only at h
      cases hm : P0.collectMissing payload (P0.requiredOf t) with
      | error m =>
        rw [hm] at h
        dsimp only at h
        rcases h with h | h <;> simp at h
      | ok missing =>
        rw [hm] at h
        dsimp only at h
        cases missing with
        | nil => rfl
        | cons p ps =>
          dsimp only at h
          rcases h with h | h <;> split at h <;> simp at h

theorem p0_route_effect_in_render (env : P0.Env) (configRes : Except String P0.Config)
    (payload : JsonVal) (o : P0.Oracle) (cfg : P0.Config) (t : P0.Template)
    (e : Effect) (h1 : configRes = .ok cfg)
    (h2 : P0.resolveTemplate cfg payload = some t) (hne : e ≠ .sellNote)
    (hmem : e ∈ (P0.renderRoute env configRes payload o).2) :
    e ∈ (P0.renderGoogleDocToPdf t payload o).2 := by
  unfold P0.renderRoute at hmem
  rw [h1] at hmem
  dsimp only at hmem
  rw [h2] at hmem
  dsimp only at hmem
  rcases hr : P0.renderGoogleDocToPdf t payload o with ⟨res, effs⟩
  rw [hr] at hmem
  cases res with
  | error e2 => exact hmem
  | ok out =>
    dsimp only at hmem
    split at hmem
    · split at hmem
      · exact hmem
      · rcases hs : o.sellRes with m | n
        · rw [hs] at hmem
          dsimp only at hmem
          rcases List.mem_append.mp hmem with h | h
          · exact h
          · simp at h
            exact absurd h hne
        · rw [hs] at hmem
          dsimp only at hmem
          rcases List.mem_append.mp hmem with h | h
          · exact h
          · simp at h
            exact absurd h hne
    · exact hmem

/-- C1: required-placeholder validation gates the export/upload.  In
src/server.js the check runs before any external call: a nonempty missing
list answers 400 with the list and no effect at all.  In src/unnamed/part_000
the check runs after the copy and its existence poll succeed: a nonempty
missing list throws the 400-tagged error listing the paths (with only the
copy, and its conditional cleanup delete, performed).  In both variants the
PDF export and upload effects can only occur when every required placeholder
resolved to a defined, non-empty value. -/
theorem c1_placeholder_validation_gates_render :
    (∀ (env : Server.Env) (cfg : Server.Config) (payload : JsonVal) (o : Server.Oracle)
        (t : Server.Template) (paths : List String),
        Server.resolveTemplate cfg payload = some t →
        Server.asPathStrings t.required_placeholders = some paths →
        (paths.filter (fun p => isMissingValue (Server.getValueByPath payload p)) ≠ [] →
          Server.renderHandler env cfg payload o =
            ({ status := 400, error := some "Missing required placeholders",
               missing := some (paths.filter
                 (fun p => isMissingValue (Server.getValueByPath payload p))),
               pdf := none, note := none }, [])) ∧
        (Effect.exportPdf ∈ (Server.renderHandler env cfg payload o).2 ∨
            Effect.upload ∈ (Server.renderHandler env cfg payload o).2 →
          paths.filter (fun p => isMissingValue (Server.getValueByPath payload p)) = [])) ∧
    (∀ (env : P0.Env) (configRes : Except String P0.Config) (payload : JsonVal)
        (o : P0.Oracle) (cfg : P0.Config) (t : P0.Template) (d : String) (b : Bool)
        (missing : List JsonVal),
        configRes = .ok cfg →
        P0.resolveTemplate cfg payload = some t →
        o.copyRes = .ok d →
        (P0.waitForFile o.wait1 d).1 = .ok b →
        P0.collectMissing payload (P0.requiredOf t) = .ok missing →
        missing ≠ [] →
        P0.renderRoute env configRes payload o =
          (P0.errResponse 400 ("Missing required placeholders: " ++ jsJoin ", " missing),
            if t.keep_intermediate_doc then [Effect.copy]
            else [Effect.copy, Effect.deleteDoc])) ∧
    (∀ (env : P0.Env) (configRes : Except String P0.Config) (payload : JsonVal)
        (o : P0.Oracle) (cfg : P0.Config) (t : P0.Template),
        configRes = .ok cfg →
        P0.resolveTemplate cfg payload = some t →
        (Effect.exportPdf ∈ (P0.renderRoute env configRes payload o).2 ∨
          Effect.upload ∈ (P0.renderRoute env configRes payload o).2) →
        P0.collectMissing payload (P0.requiredOf t) = .ok []) := by
  refine ⟨?_, ?_, ?_⟩
  · intro env cfg payload o t paths h1 h2
    have h400 : paths.filter (fun p => isMissingValue (Server.getValueByPath payload p)) ≠ [] →
        Server.renderHandler env cfg payload o =
          ({ status := 400, error := some "Missing required placeholders",
             missing := some (paths.filter
               (fun p => isMissingValue (Server.getValueByPath payload p))),
             pdf := none, note := none }, []) := by
      intro hne
      unfold Server.renderHandler
      rw [h1]
      dsimp only
      rw [h2]
      dsimp only
      cases hf : paths.filter (fun p => isMissingValue (Server.getValueByPath payload p)) with
      | nil => exact absurd hf hne
      | cons p ps => rfl
    refine ⟨h400, ?_⟩
    by_cases hm : paths.filter (fun p => isMissingValue (Server.getValueByPath payload p)) = []
    · exact fun _ => hm
    · intro hmem
      rw [h400 hm] at hmem
      rcases hmem with h | h <;> simp at h
  · intro env configRes payload o cfg t d b missing h1 h2 h3 h4 h5 h6
    have hrender : P0.renderGoogleDocToPdf t payload o =
        (.error ⟨"Missing required placeholders: " ++ jsJoin ", " missing, some 400⟩,
          if t.keep_intermediate_doc then [Effect.copy]
          else [Effect.copy, Effect.deleteDoc]) := by
      unfold P0.renderGoogleDocToPdf
      rw [h3]
      dsimp only
      rw [h4]
      dsimp only
      rw [h5]
      dsimp only
      cases missing with
      | nil => exact absurd rfl h6
      | cons p ps => rfl
    have := p0_route_of_render_error env configRes payload o cfg t _ _ h1 h2 hrender
    rw [this]
    rfl
  · intro env configRes payload o cfg t h1 h2 hmem
    apply p0_render_export_needs_validation t payload o
    rcases hmem with h | h
    · exact Or.inl (p0_route_effect_in_render env configRes payload o cfg t _ h1 h2
        (by decide) h)
    · exact Or.inr (p0_route_effect_in_render env configRes payload o cfg t _ h1 h2
        (by decide) h)

theorem createSellNote_error (env : Server.Env) (payload : JsonVal)
    (fs : List (String × JsonVal)) (sellRes : Except String JsonVal) (m : String)
    (h1 : jsIndex payload "sell" = some (.obj fs))
    (h2 : truthyProp (.obj fs) "resource_type" = true)
    (h3 : truthyProp (.obj fs) "resource_id" = true)
    (h4 : envFalsy env.sellPat = false) (h5 : envFalsy env.sellBaseUrl = false)
    (h6 : sellRes = .error m) (h7 : Server.isNullProp payload "actor" = false) :
    Server.createSellNote env sellRes payload = (.error m, true) := by
  unfold Server.createSellNote
  rw [h1]
  dsimp only [Option.getD]
  rw [h2, h3]
  simp only [Bool.and_self, if_true]
  rw [h4, h5]
  simp only [Bool.or_self, Bool.false_eq_true, if_false]
  rw [h7]
  simp only [Bool.false_eq_true, if_false]
  rw [h6]

theorem createSellNote_actor_null (env : Server.Env) (payload : JsonVal)
    (fs : List (String × JsonVal)) (sellRes : Except String JsonVal)
    (h1 : jsIndex payload "sell" = some (.obj fs))
    (h2 : truthyProp (.obj fs) "resource_type" = true)
    (h3 : truthyProp (.obj fs) "resource_id" = true)
    (h4 : envFalsy env.sellPat = false) (h5 : envFalsy env.sellBaseUrl = false)
    (h6 : Server.isNullProp payload "actor" = true) :
    Server.createSellNote env sellRes payload
      = (.error "Cannot read properties of null (reading email)", false) := by
  unfold Server.createSellNote
  rw [h1]
  dsimp only [Option.getD]
  rw [h2, h3]
  simp only [Bool.and_self, if_true]
  rw [h4, h5]
  simp only [Bool.or_self, Bool.false_eq_true, if_false]
  rw [h6]
  simp only [if_true]

/-- C4: the api-key gate and upstream error passthrough.  In both variants a
set (non-empty) `RENDER_API_KEY` with a mismatched or absent `x-api-key`
header answers 401 with no handler effect (for every possible handler), and
an unset key always passes the gate.  Any Google or CRM failure during
render surfaces as HTTP 500 whose body carries the upstream message: each
external stage's failure, with all earlier stages succeeding, yields exactly
`errResponse 500 m`.  The sell stage additionally requires the note lines to
build without throwing: a literal `payload.actor === null` makes the
`actor.email` read throw first, so that run answers 500 with the TypeError
message and never calls the CRM (no sell effect in the trace). -/
theorem c4_auth_gate_and_upstream_500 :
    (∀ (k : String) (h : Option String) (handler : Unit → Server.Response × List Effect),
        k ≠ "" → h ≠ some k →
        Server.requireApiKey (some k) h handler = (Server.errResponse 401 "Unauthorized", [])) ∧
    (∀ (h : Option String) (handler : Unit → Server.Response × List Effect),
        Server.requireApiKey none h handler = handler ()) ∧
    (∀ (k : String) (h : Option String) (handler : Unit → P0.Response × List Effect),
        k ≠ "" → h ≠ some k →
        P0.authGuard (some k) h handler = (P0.errResponse 401 "unauthorized", [])) ∧
    (∀ (h : Option String) (handler : Unit → P0.Response × List Effect),
        P0.authGuard none h handler = handler ()) ∧
    (∀ (env : Server.Env) (cfg : Server.Config) (payload : JsonVal) (o : Server.Oracle)
        (t : Server.Template) (paths : List String) (m : String),
        Server.resolveTemplate cfg payload = some t →
        Server.asPathStrings t.required_placeholders = some paths →
        paths.filter (fun p => isMissingValue (Server.getValueByPath payload p)) = [] →
        ((o.copyRes = .error m →
            (Server.renderHandler env cfg payload o).1 = Server.errResponse 500 m) ∧
         (∀ d, o.copyRes = .ok d → o.batchRes = .error m →
            (Server.renderHandler env cfg payload o).1 = Server.errResponse 500 m) ∧
         (∀ d, o.copyRes = .ok d → o.batchRes = .ok () → o.exportRes = .error m →
            (Server.renderHandler env cfg payload o).1 = Server.errResponse 500 m) ∧
         (∀ d, o.copyRes = .ok d → o.batchRes = .ok () → o.exportRes = .ok () →
            o.createRes = .error m →
            (Server.renderHandler env cfg payload o).1 = Server.errResponse 500 m) ∧
         (∀ d pdfC, o.copyRes = .ok d → o.batchRes = .ok () → o.exportRes = .ok () →
            o.createRes = .ok pdfC → t.keep_intermediate_doc = false →
            o.deleteRes = .error m →
            (Server.renderHandler env cfg payload o).1 = Server.errResponse 500 m) ∧
         (∀ d pdfC fs, o.copyRes = .ok d → o.batchRes = .ok () → o.exportRes = .ok () →
            o.createRes = .ok pdfC → t.keep_intermediate_doc = false →
            o.deleteRes = .ok () →
            jsIndex payload "sell" = some (.obj fs) →
            truthyProp (.obj fs) "resource_type" = true →
            truthyProp (.obj fs) "resource_id" = true →
            envFalsy env.sellPat = false → envFalsy env.sellBaseUrl = false →
            Server.isNullProp payload "actor" = false →
            o.sellRes = .error m →
            (Server.renderHandler env cfg payload o).1 = Server.errResponse 500 m) ∧
         (∀ d pdfC fs, o.copyRes = .ok d → o.batchRes = .ok () → o.exportRes = .ok () →
            o.createRes = .ok pdfC → t.keep_intermediate_doc = false →
            o.deleteRes = .ok () →
            jsIndex payload "sell" = some (.obj fs) →
            truthyProp (.obj fs) "resource_type" = true →
            truthyProp (.obj fs) "resource_id" = true →
            envFalsy env.sellPat = false → envFalsy env.sellBaseUrl = false →
            Server.isNullProp payload "actor" = true →
            (Server.renderHandler env cfg payload o).1
              = Server.errResponse 500 "Cannot read properties of null (reading email)" ∧
            Effect.sellNote ∉ (Server.renderHandler env cfg payload o).2))) ∧
    (∀ (env : P0.Env) (configRes : Except String P0.Config) (payload : JsonVal)
        (o : P0.Oracle) (cfg : P0.Config) (t : P0.Template) (m : String)
        (effs : List Effect),
        configRes = .ok cfg → P0.resolveTemplate cfg payload = some t →
        P0.renderGoogleDocToPdf t payload o = (.error ⟨m, none⟩, effs) →
        (P0.renderRoute env configRes payload o).1 = P0.errResponse 500 m) ∧
    (∀ (t : P0.Template) (payload : JsonVal) (o : P0.Oracle) (m : String),
        o.copyRes = .error m →
        (P0.renderGoogleDocToPdf t payload o).1 = .error ⟨m, none⟩) ∧
    (∀ (t : P0.Template) (payload : JsonVal) (o : P0.Oracle) (d m : String),
        o.copyRes = .ok d → (P0.waitForFile o.wait1 d).1 = .error m →
        (P0.renderGoogleDocToPdf t payload o).1 = .error ⟨m, none⟩) ∧
    (∀ (t : P0.Template) (payload : JsonVal) (o : P0.Oracle) (d : String) (b : Bool),
        o.copyRes = .ok d → (P0.waitForFile o.wait1 d).1 = .ok b →
        P0.collectMissing payload (P0.requiredOf t) = .ok [] →
        P0.renderGoogleDocToPdf t payload o
          = P0.afterValidate t o d (P0.requiredOf t) [Effect.copy]) ∧
    (∀ (t : P0.Template) (o : P0.Oracle) (docId : String) (effs : List Effect),
        P0.afterValidate t o docId [] effs = P0.afterBatch t o docId effs) ∧
    (∀ (t : P0.Template) (o : P0.Oracle) (docId : String) (effs : List Effect)
        (p : JsonVal) (ps : List JsonVal),
        o.batchRes = .ok () →
        P0.afterValidate t o docId (p :: ps) effs
          = P0.afterBatch t o docId (effs ++ [Effect.batchUpdate])) ∧
    (∀ (t : P0.Template) (o : P0.Oracle) (docId : String) (effs : List Effect)
        (p : JsonVal) (ps : List JsonVal) (m : String),
        o.batchRes = .error m →
        (P0.afterValidate t o docId (p :: ps) effs).1 = .error ⟨m, none⟩) ∧
    (∀ (t : P0.Template) (o : P0.Oracle) (docId : String) (effs1 : List Effect)
        (m : String),
        (P0.waitForFile o.wait2 docId).1 = .error m →
        (P0.afterBatch t o docId effs1).1 = .error ⟨m, none⟩) ∧
    (∀ (t : P0.Template) (o : P0.Oracle) (docId : String) (effs1 : List Effect)
        (b : Bool) (m : String),
        (P0.waitForFile o.wait2 docId).1 = .ok b → o.exportRes = .error m →
        (P0.afterBatch t o docId effs1).1 = .error ⟨m, none⟩) ∧
    (∀ (t : P0.Template) (o : P0.Oracle) (docId : String) (effs1 : List Effect)
        (b : Bool) (m : String),
        (P0.waitForFile o.wait2 docId).1 = .ok b → o.exportRes = .ok () →
        o.uploadRes = .error m →
        (P0.afterBatch t o docId effs1).1 = .error ⟨m, none⟩) ∧
    (∀ (env : P0.Env) (configRes : Except String P0.Config) (payload : JsonVal)
        (o : P0.Oracle) (cfg : P0.Config) (t : P0.Template) (out : P0.RenderOut)
        (effs : List Effect) (sv : JsonVal) (m : String),
        configRes = .ok cfg → P0.resolveTemplate cfg payload = some t →
        P0.renderGoogleDocToPdf t payload o = (.ok out, effs) →
        jsIndex payload "sell" = some sv →
        truthyProp sv "resource_type" = true → truthyProp sv "resource_id" = true →
        env.sellPat.getD "" ≠ "" → o.sellRes = .error m →
        (P0.renderRoute env configRes payload o).1 = P0.errResponse 500 m) := by
  refine ⟨?_, ?_, ?_, ?_, ?_, ?_, ?_, ?_, ?_, ?_, ?_, ?_, ?_, ?_, ?_, ?_⟩
  · intro k h handler hk hh
    unfold Server.requireApiKey
    rw [if_neg (by simp [envFalsy, hk]), if_pos hh]
  · intro h handler
    rfl
  · intro k h handler hk hh
    unfold P0.authGuard
    rw [if_neg (by simpa using hk), if_pos (by simpa using hh)]
  · intro h handler
    rfl
  · intro env cfg payload o t paths m h1 h2 h3
    refine ⟨?_, ?_, ?_, ?_, ?_, ?_, ?_⟩
    · intro hc
      unfold Server.renderHandler
      rw [h1]
      dsimp only
      rw [h2]
      dsimp only
      rw [h3]
      dsimp only
      rw [hc]
    · intro d hc hb
      unfold Server.renderHandler
      rw [h1]
      dsimp only
      rw [h2]
      dsimp only
      rw [h3]
      dsimp only
      rw [hc]
      dsimp only
      rw [hb]
    · intro d hc hb he
      unfold Server.renderHandler
      rw [h1]
      dsimp only
      rw [h2]
      dsimp only
      rw [h3]
      dsimp only
      rw [hc]
      dsimp only
      rw [hb]
      dsimp only
      rw [he]
    · intro d hc hb he hcr
      unfold Server.renderHandler
      rw [h1]
      dsimp only
      rw [h2]
      dsimp only
      rw [h3]
      dsimp only
      rw [hc]
      dsimp only
      rw [hb]
      dsimp only
      rw [he]
      dsimp only
      rw [hcr]
    · intro d pdfC hc hb he hcr hk hd
      unfold Server.renderHandler
      rw [h1]
      dsimp only
      rw [h2]
      dsimp only
      rw [h3]
      dsimp only
      rw [hc]
      dsimp only
      rw [hb]
      dsimp only
      rw [he]
      dsimp only
      rw [hcr]
      dsimp only
      unfold Server.afterCreate
      rw [hk]
      dsimp only
      rw [hd]
      rfl
    · intro d pdfC fs hc hb he hcr hk hd hsv hrt hri hp hbu hna hs
      unfold Server.renderHandler
      rw [h1]
      dsimp only
      rw [h2]
      dsimp only
      rw [h3]
      dsimp only
      rw [hc]
      dsimp only
      rw [hb]
      dsimp only
      rw [he]
      dsimp only
      rw [hcr]
      dsimp only
      unfold Server.afterCreate
      rw [hk]
      dsimp only
      rw [hd]
      dsimp only
      unfold Server.finishSell
      rw [createSellNote_error env payload fs o.sellRes m hsv hrt hri hp hbu hs hna]
      rfl
    · intro d pdfC fs hc hb he hcr hk hd hsv hrt hri hp hbu hna
      have heq : Server.renderHandler env cfg payload o
          = (Server.errResponse 500 "Cannot read properties of null (reading email)",
             [Effect.copy, Effect.batchUpdate, Effect.exportPdf, Effect.upload,
              Effect.deleteDoc]) := by
        unfold Server.renderHandler
        rw [h1]
        dsimp only
        rw [h2]
        dsimp only
        rw [h3]
        dsimp only
        rw [hc]
        dsimp only
        rw [hb]
        dsimp only
        rw [he]
        dsimp only
        rw [hcr]
        dsimp only
        unfold Server.afterCreate
        rw [hk]
        dsimp only
        rw [hd]
        dsimp only
        unfold Server.finishSell
        rw [createSellNote_actor_null env payload fs o.sellRes hsv hrt hri hp hbu hna]
        rfl
      rw [heq]
      exact ⟨rfl, by decide⟩
  · intro env configRes payload o cfg t m effs h1 h2 h3
    rw [p0_route_of_render_error env configRes payload o cfg t _ _ h1 h2 h3]
    rfl
  · intro t payload o m hc
    unfold P0.renderGoogleDocToPdf
    rw [hc]
  · intro t payload o d m hc hw
    unfold P0.renderGoogleDocToPdf
    rw [hc]
    dsimp only
    rw [hw]
  · intro t payload o d b hc hw hm
    unfold P0.renderGoogleDocToPdf
    rw [hc]
    dsimp only
    rw [hw]
    dsimp only
    rw [hm]
  · intro t o docId effs
    rfl
  · intro t o docId effs p ps hb
    unfold P0.afterValidate
    dsimp only
    rw [hb]
  · intro t o docId effs p ps m hb
    unfold P0.afterValidate
    dsimp only
    rw [hb]
  · intro t o docId effs1 m hw
    unfold P0.afterBatch
    rw [hw]
  · intro t o docId effs1 b m hw he
    unfold P0.afterBatch
    rw [hw]
    dsimp only
    rw [he]
  · intro t o docId effs1 b m hw he hu
    unfold P0.afterBatch
    rw [hw]
    dsimp only
    rw [he]
    dsimp only
    rw [hu]
  · intro env configRes payload o cfg t out effs sv m h1 h2 h3 hsv hrt hri hp hs
    unfold P0.renderRoute
    rw [h1]
    dsimp only
    rw [h2]
    dsimp only
    rw [h3]
    dsimp only
    rw [hsv]
    dsimp only
    rw [hrt, hri]
    simp only [Bool.and_self, if_true]
    rw [if_neg hp]
    rw [hs]

/-- A sample src/server.js template used by the concrete runs below. -/
def exTemplateS : Server.Template :=
  { template_key := some "t1", display_name := some "Doc", engine := some "gdoc"
    doc_template_id := some "d1", output_filename_pattern := none
    required_placeholders := [.str "a.b"], default_package_key := none
    keep_intermediate_doc := false, version := some "1", is_active := true
    notes := none }

/-- A sample src/server.js config. -/
def exConfigS : Server.Config := { templates := [exTemplateS], exam_packages := [] }

/-- A sample all-success src/server.js oracle. -/
def exOracleS : Server.Oracle :=
  { copyRes := .ok "c1", batchRes := .ok (), exportRes := .ok ()
    createRes := .ok ⟨some "f1", some "n.pdf", some "u"⟩, deleteRes := .ok ()
    sellRes := .ok .null }

example :
    (Server.renderHandler ⟨none, none, none⟩ exConfigS
      (.obj [("template_key", .str "t1")]) exOracleS).1.status = 400 := by rfl

example :
    (Server.renderHandler ⟨none, none, none⟩ exConfigS
      (.obj [("template_key", .str "t1")]) exOracleS).1.missing = some ["a.b"] := by rfl

example :
    (Server.renderHandler ⟨none, none, none⟩ exConfigS
      (.obj [("template_key", .str "t1"), ("a", .obj [("b", .str "x")])]) exOracleS)
      = ({ status := 200, error := none, missing := none,
           pdf := some ⟨some "f1", some "n.pdf", some "u"⟩, note := none },
         [.copy, .batchUpdate, .exportPdf, .upload, .deleteDoc]) := by rfl

example :
    P0.renderGoogleDocToPdf c3Template c3Payload
      { c3Oracle with exportRes := .ok () }
      = (.ok ⟨some "f", some "n", some "u", none⟩,
         [.copy, .batchUpdate, .exportPdf, .upload, .deleteDoc]) := by rfl

example :
    (P0.renderRoute ⟨none, none⟩ (.ok ⟨[c3Template], []⟩)
      (.obj [("template_key", .str "t1")]) c3Oracle).1
      = P0.errResponse 400 "Missing required placeholders: a" := by rfl

example :
    Server.requireApiKey (some "k") (some "wrong")
      (fun _ => (Server.errResponse 200 "x", [])) =
      (Server.errResponse 401 "Unauthorized", []) := by rfl

example :
    P0.authGuard (some "k") none (fun _ => (P0.errResponse 200 "x", [])) =
      (P0.errResponse 401 "unauthorized", []) := by rfl

example :
    Server.renderHandler ⟨none, some "pat", some "https://sell"⟩ exConfigS
      (.obj [("template_key", .str "t1"), ("a", .obj [("b", .str "x")]),
             ("sell", .obj [("resource_type", .str "deal"), ("resource_id", .num 7)]),
             ("actor", .null)])
      { exOracleS with sellRes := .error "Sell note creation failed: 500 oops" }
      = (Server.errResponse 500 "Cannot read properties of null (reading email)",
         [.copy, .batchUpdate, .exportPdf, .upload, .deleteDoc]) := by rfl

example :
    Server.renderHandler ⟨none, some "pat", some "https://sell"⟩ exConfigS
      (.obj [("template_key", .str "t1"), ("a", .obj [("b", .str "x")]),
             ("sell", .obj [("resource_type", .str "deal"), ("resource_id", .num 7)]),
             ("actor", .obj [("email", .str "a@b.c")])])
      { exOracleS with sellRes := .error "Sell note creation failed: 500 oops" }
      = (Server.errResponse 500 "Sell note creation failed: 500 oops",
         [.copy, .batchUpdate, .exportPdf, .upload, .deleteDoc, .sellNote]) := by rfl
